import Mathlib

/-!
Verification development for the data-docs-api document persistence service.

The service validates inbound JSON documents and persists them in a Cassandra
wide table (`trace_tracker.documents`).  This file gives a shallow embedding of
the components the claims are about:

* a `JSVal` type modelling runtime JavaScript values, with executable models of
  the JS builtins the code uses (`JSON.stringify`, `JSON.parse`, `String(x)`,
  truthiness, `new Date(x)`);
* the `Doc` record with one field per column of the `documents` table;
* `treatDocument` (src/controllers/document/documentBase.ts),
  `prepareDocumentForCassandra`, `insertDocument`, `deleteDocument`,
  `searchByDocumentId`, `searchByAssetId` (single and batch branch),
  `updateDocument` and `connectCassandra` (src/dbManager/cassandraClient.ts),
  and the controller loops `addDocument` / `removeDocuments`;
* the Cassandra store is modelled as a list of rows, with the driver's paging
  contract (fetchSize / pageState) modelled as offset-based slicing.

Modelling notes for the JS builtins (they are runtime builtins, not repository
code, so they are translated from their documented behaviour): `JSON.parse` is
modelled for the JSON fragment with integer numeric literals and without
`\uXXXX` escapes (inputs outside the fragment fail to parse, which the calling
code treats the same as any parse failure); `Date` values are kept abstract as
"parsed from this string" / "current time at this tick" instead of a concrete
calendar arithmetic, since no code path inspects the numeric value of a date.
-/

set_option maxHeartbeats 1000000

namespace DataDocs

/-- Abstract model of a JS `Date` value: either parsed from a string
(`new Date(s)`), the current time at a given tick of an abstract clock
(`new Date()`), or an invalid date. -/
inductive DateRep where
  | fromStr (s : String)
  | nowTick (t : Nat)
  | invalid
deriving DecidableEq, Repr

/-- Runtime JavaScript values, as far as the document pipeline manipulates
them: `undefined`, `null`, booleans, (integer) numbers, strings, arrays,
plain objects and `Date`s. -/
inductive JSVal where
  | undef
  | null
  | bool (b : Bool)
  | num (n : Int)
  | str (s : String)
  | arr (elems : List JSVal)
  | obj (fields : List (String × JSVal))
  | date (d : DateRep)
deriving Repr

mutual

/-- Structural boolean equality on `JSVal` (the derived instance is unavailable
for this nested inductive, so it is written out). -/
def jsBeq : JSVal → JSVal → Bool
  | .undef, .undef => true
  | .null, .null => true
  | .bool a, .bool b => a == b
  | .num a, .num b => a == b
  | .str a, .str b => a == b
  | .arr a, .arr b => jsBeqList a b
  | .obj a, .obj b => jsBeqFields a b
  | .date a, .date b => a == b
  | _, _ => false

/-- Pointwise `jsBeq` on element lists. -/
def jsBeqList : List JSVal → List JSVal → Bool
  | [], [] => true
  | a :: as, b :: bs => jsBeq a b && jsBeqList as bs
  | _, _ => false

/-- Pointwise `jsBeq` on object field lists. -/
def jsBeqFields : List (String × JSVal) → List (String × JSVal) → Bool
  | [], [] => true
  | (k, v) :: as, (k2, v2) :: bs => k == k2 && jsBeq v v2 && jsBeqFields as bs
  | _, _ => false

end

mutual

theorem jsBeq_iff : ∀ (a b : JSVal), jsBeq a b = true ↔ a = b
  | .undef, b => by cases b <;> simp [jsBeq]
  | .null, b => by cases b <;> simp [jsBeq]
  | .bool x, b => by cases b <;> simp [jsBeq]
  | .num x, b => by cases b <;> simp [jsBeq]
  | .str x, b => by cases b <;> simp [jsBeq]
  | .date x, b => by cases b <;> simp [jsBeq]
  | .arr xs, b => by
      cases b <;> simp [jsBeq]
      exact jsBeqList_iff xs _
  | .obj fs, b => by
      cases b <;> simp [jsBeq]
      exact jsBeqFields_iff fs _

theorem jsBeqList_iff : ∀ (as bs : List JSVal), jsBeqList as bs = true ↔ as = bs
  | [], bs => by cases bs <;> simp [jsBeqList]
  | a :: as, [] => by simp [jsBeqList]
  | a :: as, b :: bs => by
      simp [jsBeqList, jsBeq_iff a b, jsBeqList_iff as bs]

theorem jsBeqFields_iff :
    ∀ (as bs : List (String × JSVal)), jsBeqFields as bs = true ↔ as = bs
  | [], bs => by cases bs <;> simp [jsBeqFields]
  | a :: as, [] => by simp [jsBeqFields]
  | (k, v) :: as, (k2, v2) :: bs => by
      simp [jsBeqFields, jsBeq_iff v v2, jsBeqFields_iff as bs, and_assoc]

end

instance : DecidableEq JSVal :=
  fun a b => decidable_of_iff (jsBeq a b = true) (jsBeq_iff a b)

/-- Display string of a JS `Date` (what `String(someDate)` yields).  The exact
JS calendar formatting is abstracted to an injective tagged form; no code path
in the repository inspects the text of a date. -/
def dateDisplay : DateRep → String
  | .fromStr s => "[Date:" ++ s ++ "]"
  | .nowTick t => "[Date:now:" ++ toString t ++ "]"
  | .invalid => "Invalid Date"

/-- ISO serialization of a JS `Date` (what `Date.prototype.toJSON` yields,
used by `JSON.stringify`).  Abstracted like `dateDisplay`; an invalid date
serializes as JSON `null`, as in JS. -/
def dateISO : DateRep → Option String
  | .fromStr s => some ("[ISODate:" ++ s ++ "]")
  | .nowTick t => some ("[ISODate:now:" ++ toString t ++ "]")
  | .invalid => none

mutual

/-- Model of the JS `String(x)` coercion for the values the pipeline can hold.
Arrays join their elements with commas (`Array.prototype.toString`), with
`null`/`undefined` elements rendering as the empty string; plain objects
render as `[object Object]`. -/
def jsToString : JSVal → String
  | .undef => "undefined"
  | .null => "null"
  | .bool b => cond b "true" "false"
  | .num n => toString n
  | .str s => s
  | .arr xs => joinElems xs
  | .obj _ => "[object Object]"
  | .date d => dateDisplay d

/-- Comma-join of array elements, as `Array.prototype.join(',')`. -/
def joinElems : List JSVal → String
  | [] => ""
  | [v] => joinElem v
  | v :: vs => joinElem v ++ "," ++ joinElems vs

/-- One element under `Array.prototype.join`: `null` and `undefined` become
the empty string, everything else is coerced with `String(x)`. -/
def joinElem : JSVal → String
  | .undef => ""
  | .null => ""
  | v => jsToString v

end

/-- Hexadecimal digit character for `\u00XX` escapes. -/
def hexDigit (n : Nat) : Char :=
  if n < 10 then Char.ofNat (48 + n) else Char.ofNat (87 + n)

/-- JSON escaping of one character, as `JSON.stringify` performs on string
contents. -/
def escChar (c : Char) : List Char :=
  if c = '"' then ['\\', '"']
  else if c = '\\' then ['\\', '\\']
  else if c = '\n' then ['\\', 'n']
  else if c = '\t' then ['\\', 't']
  else if c = '\r' then ['\\', 'r']
  else if c = '\x08' then ['\\', 'b']
  else if c = '\x0c' then ['\\', 'f']
  else if c.toNat < 32 then
    ['\\', 'u', '0', '0', hexDigit (c.toNat / 16), hexDigit (c.toNat % 16)]
  else [c]

/-- Comma-join of pre-rendered chunks. -/
def joinComma : List (List Char) → List Char
  | [] => []
  | [c] => c
  | c :: cs => c ++ ',' :: joinComma cs

mutual

/-- Character-level model of `JSON.stringify`.  Inside arrays, `undefined`
serializes as `null` (as in JS); object members whose value is `undefined`
are omitted (as in JS); `Date`s serialize via `toJSON`.  A top-level
`undefined` is never passed to `JSON.stringify` by the code in this
repository (both call sites guard on truthiness or pass a required field),
so its top-level rendering as `null` here is unreachable. -/
def stringifyL : JSVal → List Char
  | .undef => 'n' :: 'u' :: 'l' :: 'l' :: []
  | .null => 'n' :: 'u' :: 'l' :: 'l' :: []
  | .bool b => cond b ('t' :: 'r' :: 'u' :: 'e' :: []) ('f' :: 'a' :: 'l' :: 's' :: 'e' :: [])
  | .num n => (toString n).data
  | .str s => '"' :: (s.data.flatMap escChar ++ ['"'])
  | .arr xs => '[' :: (stringifyArr xs ++ [']'])
  | .obj fs => '\x7b' :: (joinComma (stringifyObjMembers fs) ++ ['\x7d'])
  | .date d =>
    match dateISO d with
    | some s => '"' :: (s.data.flatMap escChar ++ ['"'])
    | none => 'n' :: 'u' :: 'l' :: 'l' :: []

/-- Array body of `JSON.stringify`: elements comma-separated. -/
def stringifyArr : List JSVal → List Char
  | [] => []
  | [v] => stringifyL v
  | v :: vs => stringifyL v ++ ',' :: stringifyArr vs

/-- Object members of `JSON.stringify`, skipping `undefined` values. -/
def stringifyObjMembers : List (String × JSVal) → List (List Char)
  | [] => []
  | (_, .undef) :: fs => stringifyObjMembers fs
  | (k, v) :: fs =>
    ('"' :: (k.data.flatMap escChar ++ '"' :: ':' :: stringifyL v)) :: stringifyObjMembers fs

end

/-- String-level `JSON.stringify`. -/
def jsonStringify (v : JSVal) : String := String.mk (stringifyL v)

/-- JS truthiness of a value (`if (x)`).  `NaN` is not representable in the
integer number model; every other JS falsy value is covered. -/
def jsTruthy : JSVal → Bool
  | .undef => false
  | .null => false
  | .bool b => b
  | .num n => n != 0
  | .str s => s != ""
  | .arr _ => true
  | .obj _ => true
  | .date _ => true

/-- Whether a value is a string (`typeof x === 'string'`). -/
def isStr : JSVal → Bool
  | .str _ => true
  | _ => false

/-- Model of `new Date(x)` for the argument shapes the pipeline produces: a
string is kept as "the date this string denotes", a date is copied; the other
shapes do not occur on the validated paths and map to an invalid date. -/
def jsNewDate : JSVal → DateRep
  | .str s => .fromStr s
  | .date d => d
  | _ => .invalid

/-- JSON insignificant whitespace skipper. -/
def skipWs : List Char → List Char
  | c :: rest =>
    if c = ' ' ∨ c = '\n' ∨ c = '\t' ∨ c = '\r' then skipWs rest else c :: rest
  | [] => []

/-- Body of a JSON string literal, after the opening quote: consumes up to and
including the closing quote, decoding escapes.  `\uXXXX` escapes and raw
control characters are outside the modelled fragment and fail. -/
def parseStrBody : List Char → List Char → Option (String × List Char)
  | [], _ => none
  | c :: rest, acc =>
    if c = '"' then some (String.mk acc.reverse, rest)
    else if c = '\\' then
      match rest with
      | [] => none
      | e :: rest2 =>
        if e = '"' then parseStrBody rest2 ('"' :: acc)
        else if e = '\\' then parseStrBody rest2 ('\\' :: acc)
        else if e = '/' then parseStrBody rest2 ('/' :: acc)
        else if e = 'n' then parseStrBody rest2 ('\n' :: acc)
        else if e = 't' then parseStrBody rest2 ('\t' :: acc)
        else if e = 'r' then parseStrBody rest2 ('\r' :: acc)
        else if e = 'b' then parseStrBody rest2 ('\x08' :: acc)
        else if e = 'f' then parseStrBody rest2 ('\x0c' :: acc)
        else none
    else if c.toNat < 32 then none
    else parseStrBody rest (c :: acc)

/-- Decimal digit run, accumulating its value. -/
def parseDigits : List Char → Nat → Nat × List Char
  | c :: rest, acc =>
    if c.isDigit then parseDigits rest (acc * 10 + (c.toNat - 48)) else (acc, c :: rest)
  | [], acc => (acc, [])

/-- Integer JSON numeral after an optional sign; a following `.`, `e` or `E`
puts the input outside the modelled fragment and fails the parse. -/
def parseIntNum (neg : Bool) : List Char → Option (JSVal × List Char)
  | c :: rest =>
    if c.isDigit then
      let p := parseDigits (c :: rest) 0
      match p.2 with
      | d :: _ =>
        if d = '.' ∨ d = 'e' ∨ d = 'E' then none
        else some (.num (if neg then -(p.1 : Int) else (p.1 : Int)), p.2)
      | [] => some (.num (if neg then -(p.1 : Int) else (p.1 : Int)), p.2)
    else none
  | [] => none

mutual

/-- Recursive-descent JSON value parser (fuel-indexed); models `JSON.parse`
on the fragment described at the head of this file. -/
def parseVal : Nat → List Char → Option (JSVal × List Char)
  | 0, _ => none
  | fuel + 1, cs =>
    match skipWs cs with
    | '"' :: rest => (parseStrBody rest []).map (fun p => (.str p.1, p.2))
    | '[' :: rest =>
      (match skipWs rest with
       | ']' :: r2 => some (.arr [], r2)
       | _ => (parseElems fuel rest).map (fun p => (.arr p.1, p.2)))
    | '\x7b' :: rest =>
      (match skipWs rest with
       | '\x7d' :: r2 => some (.obj [], r2)
       | _ => (parseMembers fuel rest).map (fun p => (.obj p.1, p.2)))
    | 'n' :: 'u' :: 'l' :: 'l' :: rest => some (.null, rest)
    | 't' :: 'r' :: 'u' :: 'e' :: rest => some (.bool true, rest)
    | 'f' :: 'a' :: 'l' :: 's' :: 'e' :: rest => some (.bool false, rest)
    | '-' :: rest => parseIntNum true rest
    | other => parseIntNum false other

/-- Nonempty comma-separated element list of a JSON array, consuming the
closing bracket. -/
def parseElems : Nat → List Char → Option (List JSVal × List Char)
  | 0, _ => none
  | fuel + 1, cs =>
    (parseVal fuel cs).bind fun p =>
      match skipWs p.2 with
      | ',' :: r2 => (parseElems fuel r2).map (fun q => (p.1 :: q.1, q.2))
      | ']' :: r2 => some ([p.1], r2)
      | _ => none

/-- Nonempty member list of a JSON object, consuming the closing brace. -/
def parseMembers : Nat → List Char → Option (List (String × JSVal) × List Char)
  | 0, _ => none
  | fuel + 1, cs =>
    match skipWs cs with
    | '"' :: rest =>
      (parseStrBody rest []).bind fun pk =>
        match skipWs pk.2 with
        | ':' :: rv =>
          (parseVal fuel rv).bind fun p =>
            match skipWs p.2 with
            | ',' :: r2 => (parseMembers fuel r2).map (fun q => ((pk.1, p.1) :: q.1, q.2))
            | '\x7d' :: r2 => some ([(pk.1, p.1)], r2)
            | _ => none
        | _ => none
    | _ => none

end

/-- String-level model of `JSON.parse`: `none` models the thrown
`SyntaxError` (the caller catches it).  The fuel bound is generous: parsing
consumes at least one character per two fuel units. -/
def jsonParse (s : String) : Option JSVal :=
  match parseVal (2 * s.data.length + 2) s.data with
  | some p => if skipWs p.2 = [] then some p.1 else none
  | none => none

/-- A document object, with one field per property of the `Document` interface
(equivalently, per column of the `trace_tracker.documents` table).  Fields
hold runtime JS values; a field a given object does not carry is `undef`. -/
@[ext]
structure Doc where
  idDocument : JSVal := .undef
  idAsset : JSVal := .undef
  assetIdBlockchain : JSVal := .undef
  idEvaluation : JSVal := .undef
  amount : JSVal := .undef
  initAmount : JSVal := .undef
  owner : JSVal := .undef
  operation : JSVal := .undef
  status : JSVal := .undef
  txStatus : JSVal := .undef
  idLocal : JSVal := .undef
  idExternal : JSVal := .undef
  idOwner : JSVal := .undef
  extIdOwner : JSVal := .undef
  orgOwner : JSVal := .undef
  orgTarget : JSVal := .undef
  orgOrigin : JSVal := .undef
  processId : JSVal := .undef
  natureId : JSVal := .undef
  stageId : JSVal := .undef
  data : JSVal := .undef
  dataHash : JSVal := .undef
  groupedBy : JSVal := .undef
  groupedAssets : JSVal := .undef
  targetPerson : JSVal := .undef
  targetLocal : JSVal := .undef
  quantityMoved : JSVal := .undef
  extTargetPerson : JSVal := .undef
  extTargetLocal : JSVal := .undef
  extNewAssetId : JSVal := .undef
  channelName : JSVal := .undef
  txHash : JSVal := .undef
  blockNumber : JSVal := .undef
  timestamp : JSVal := .undef
  createdAt : JSVal := .undef
deriving DecidableEq, Repr

/-- Controller helper `treatDocument` (documentBase.ts): spreads the incoming
document, converts `timestamp` with `new Date(...)`, serializes `data` with
`JSON.stringify`, and serializes each of `idExternal` / `groupedBy` /
`groupedAssets` to a JSON string when truthy and to `null` otherwise.  The
source function is `async` but performs no suspension, so it is modelled as a
pure function. -/
def treatDocument (document : Doc) : Doc :=
  { document with
    timestamp := .date (jsNewDate document.timestamp)
    data := .str (jsonStringify document.data)
    idExternal :=
      if jsTruthy document.idExternal then .str (jsonStringify document.idExternal) else .null
    groupedBy :=
      if jsTruthy document.groupedBy then .str (jsonStringify document.groupedBy) else .null
    groupedAssets :=
      if jsTruthy document.groupedAssets then .str (jsonStringify document.groupedAssets)
      else .null }

/-- Element coercion inside `prepareDocumentForCassandra`:
`typeof item === 'string' ? item : String(item)`. -/
def coerceItem : JSVal → JSVal
  | .str s => .str s
  | v => .str (jsToString v)

/-- Normalization of one list-typed field (`groupedBy`, `groupedAssets`,
`idExternal`) in `prepareDocumentForCassandra` (cassandraClient.ts): skipped
when `undefined` or `null`; a string is `JSON.parse`d, with a parse failure
degrading to a one-element array holding the raw string; a non-array is
wrapped as a one-element array; every element is coerced to a string. -/
def normalizeListField (v : JSVal) : JSVal :=
  match v with
  | .undef => .undef
  | .null => .null
  | v =>
    let v1 :=
      match v with
      | .str s =>
        (match jsonParse s with
         | some j => j
         | none => .arr [.str s])
      | x => x
    let v2 :=
      match v1 with
      | .arr _ => v1
      | x => .arr [x]
    match v2 with
    | .arr xs => .arr (xs.map coerceItem)
    | x => x

/-- The Field Mapper `prepareDocumentForCassandra` (cassandraClient.ts):
copies the document, normalizes the three list-typed fields, and serializes
`data` to a JSON string when it is truthy and not already a string. -/
def prepareDocumentForCassandra (document : Doc) : Doc :=
  let prepared :=
    { document with
      groupedBy := normalizeListField document.groupedBy
      groupedAssets := normalizeListField document.groupedAssets
      idExternal := normalizeListField document.idExternal }
  if jsTruthy prepared.data && !(isStr prepared.data) then
    { prepared with data := .str (jsonStringify prepared.data) }
  else prepared

/-- A JS property that is `undefined` is not inserted, and Cassandra returns
`null` for the unset column when the row is read back. -/
def undefToNull : JSVal → JSVal
  | .undef => .null
  | v => v

/-- The row a document occupies in the `documents` table: every column is
present, with `null` standing for columns the insert left unset. -/
def toRow (d : Doc) : Doc where
  idDocument := undefToNull d.idDocument
  idAsset := undefToNull d.idAsset
  assetIdBlockchain := undefToNull d.assetIdBlockchain
  idEvaluation := undefToNull d.idEvaluation
  amount := undefToNull d.amount
  initAmount := undefToNull d.initAmount
  owner := undefToNull d.owner
  operation := undefToNull d.operation
  status := undefToNull d.status
  txStatus := undefToNull d.txStatus
  idLocal := undefToNull d.idLocal
  idExternal := undefToNull d.idExternal
  idOwner := undefToNull d.idOwner
  extIdOwner := undefToNull d.extIdOwner
  orgOwner := undefToNull d.orgOwner
  orgTarget := undefToNull d.orgTarget
  orgOrigin := undefToNull d.orgOrigin
  processId := undefToNull d.processId
  natureId := undefToNull d.natureId
  stageId := undefToNull d.stageId
  data := undefToNull d.data
  dataHash := undefToNull d.dataHash
  groupedBy := undefToNull d.groupedBy
  groupedAssets := undefToNull d.groupedAssets
  targetPerson := undefToNull d.targetPerson
  targetLocal := undefToNull d.targetLocal
  quantityMoved := undefToNull d.quantityMoved
  extTargetPerson := undefToNull d.extTargetPerson
  extTargetLocal := undefToNull d.extTargetLocal
  extNewAssetId := undefToNull d.extNewAssetId
  channelName := undefToNull d.channelName
  txHash := undefToNull d.txHash
  blockNumber := undefToNull d.blockNumber
  timestamp := undefToNull d.timestamp
  createdAt := undefToNull d.createdAt

/-- Environment of one `insertDocument` call: the value `Uuid.random()`
produces and the tick at which `new Date()` is taken. -/
structure InsertEnv where
  uuid : String
  nowTick : Nat
deriving DecidableEq, Repr

/-- The value the Cassandra mapper's `insert` resolves with: a driver
`Result`, whose row list is empty for a plain insert. -/
structure MapperResult where
  rows : List Doc
deriving DecidableEq, Repr

/-- Everything observable after an `insertDocument` call: the caller's
document object (which the function mutated), the store, and the value the
function returned. -/
structure InsertOut where
  doc : Doc
  store : List Doc
  ret : MapperResult
deriving DecidableEq, Repr

/-- The in-place mutation `insertDocument` performs on its argument before
writing: `document.idDocument = uuid.toString(); document.createdAt = new
Date();`. -/
def assignIds (env : InsertEnv) (document : Doc) : Doc :=
  { document with idDocument := .str env.uuid, createdAt := .date (.nowTick env.nowTick) }

/-- Gateway `insertDocument` (cassandraClient.ts): generates a UUID string
and a creation timestamp onto the argument, prepares the document with the
Field Mapper, and writes the prepared record through the mapper.  The
returned value is the mapper's `Result`, not the id. -/
def insertDocument (env : InsertEnv) (store : List Doc) (document : Doc) : InsertOut :=
  let document := assignIds env document
  let preparedDoc := prepareDocumentForCassandra document
  { doc := document, store := store ++ [toRow preparedDoc], ret := { rows := [] } }

/-- Gateway `deleteDocument` (cassandraClient.ts): removes the row whose
primary key `id_document` equals the given id.  Deleting an absent id is a
no-op at this layer. -/
def deleteDocument (store : List Doc) (idDocument : String) : List Doc :=
  store.filter (fun r => r.idDocument != .str idDocument)

/-- Result set of a point query. -/
structure QueryResult where
  rows : List Doc
  rowLength : Nat
deriving DecidableEq, Repr

/-- Gateway `searchByDocumentId` (cassandraClient.ts):
`SELECT * FROM trace_tracker.documents WHERE id_document = ?`. -/
def searchByDocumentId (store : List Doc) (idDocument : String) : QueryResult :=
  let rows := store.filter (fun r => r.idDocument == .str idDocument)
  { rows := rows, rowLength := rows.length }

/-- The explicit camelCase → snake_case table inside `updateDocument`
(cassandraClient.ts). -/
def fieldMapping : String → Option String
  | "txHash" => some "tx_hash"
  | "blockNumber" => some "block_number"
  | "status" => some "status"
  | "txStatus" => some "tx_status"
  | "amount" => some "amount"
  | "idLocal" => some "id_local"
  | "dataHash" => some "data_hash"
  | _ => none

/-- Setter of each non-key column of the `documents` table (CREATE TABLE in
cassandraClient.ts).  The primary key `id_document` has no setter: Cassandra
rejects a `SET` on the primary key. -/
def columnSetters : List (String × (Doc → JSVal → Doc)) :=
  [("id_asset", fun r v => { r with idAsset := v }),
   ("asset_id_blockchain", fun r v => { r with assetIdBlockchain := v }),
   ("id_evaluation", fun r v => { r with idEvaluation := v }),
   ("amount", fun r v => { r with amount := v }),
   ("init_amount", fun r v => { r with initAmount := v }),
   ("owner", fun r v => { r with owner := v }),
   ("operation", fun r v => { r with operation := v }),
   ("status", fun r v => { r with status := v }),
   ("tx_status", fun r v => { r with txStatus := v }),
   ("id_local", fun r v => { r with idLocal := v }),
   ("id_external", fun r v => { r with idExternal := v }),
   ("id_owner", fun r v => { r with idOwner := v }),
   ("ext_id_owner", fun r v => { r with extIdOwner := v }),
   ("org_owner", fun r v => { r with orgOwner := v }),
   ("org_target", fun r v => { r with orgTarget := v }),
   ("org_origin", fun r v => { r with orgOrigin := v }),
   ("process_id", fun r v => { r with processId := v }),
   ("nature_id", fun r v => { r with natureId := v }),
   ("stage_id", fun r v => { r with stageId := v }),
   ("data", fun r v => { r with data := v }),
   ("data_hash", fun r v => { r with dataHash := v }),
   ("grouped_by", fun r v => { r with groupedBy := v }),
   ("grouped_assets", fun r v => { r with groupedAssets := v }),
   ("target_person", fun r v => { r with targetPerson := v }),
   ("target_local", fun r v => { r with targetLocal := v }),
   ("quantity_moved", fun r v => { r with quantityMoved := v }),
   ("ext_target_person", fun r v => { r with extTargetPerson := v }),
   ("ext_target_local", fun r v => { r with extTargetLocal := v }),
   ("ext_new_asset_id", fun r v => { r with extNewAssetId := v }),
   ("channel_name", fun r v => { r with channelName := v }),
   ("tx_hash", fun r v => { r with txHash := v }),
   ("block_number", fun r v => { r with blockNumber := v }),
   ("timestamp", fun r v => { r with timestamp := v }),
   ("created_at", fun r v => { r with createdAt := v })]

/-- One `SET column = ?` assignment applied to a row, following the columns
of the `documents` table.  Cassandra rejects a `SET` on the primary key
`id_document` and on a column the table does not have; `none` models the
rejected statement (no row is changed). -/
def setColumn (r : Doc) (col : String) (v : JSVal) : Option Doc :=
  if col = "id_document" then none
  else (columnSetters.lookup col).map (fun f => f r v)

/-- All `SET` assignments of one UPDATE statement, applied left to right. -/
def applySets (r : Doc) : List (String × JSVal) → Option Doc
  | [] => some r
  | (c, v) :: rest => (setColumn r c v).bind (fun r2 => applySets r2 rest)

/-- The UPDATE statement applied to the store: assignments are applied to
the row(s) whose `id_document` matches the WHERE clause, other rows are
untouched.  (Cassandra's conditionless UPDATE would also upsert a missing
key; the controller verifies existence before every update, so only existing
rows are modelled.) -/
def applyUpdateRows (idDocument : String) (setPairs : List (String × JSVal)) :
    List Doc → Option (List Doc)
  | [] => some []
  | r :: rest =>
    (if r.idDocument == .str idDocument then applySets r setPairs else some r).bind
      fun a => (applyUpdateRows idDocument setPairs rest).map (a :: ·)

/-- Gateway `updateDocument` (cassandraClient.ts): each update key is mapped
through `fieldMapping` with unrecognized keys passing through unchanged
(`fieldMapping[key] || key`); an empty assignment list returns without
contacting storage; otherwise one `UPDATE ... SET ... WHERE id_document = ?`
is executed. -/
def updateDocument (store : List Doc) (idDocument : String)
    (updates : List (String × JSVal)) : Option (List Doc) :=
  let setPairs := updates.map (fun kv => ((fieldMapping kv.1).getD kv.1, kv.2))
  if setPairs.length = 0 then some store
  else applyUpdateRows idDocument setPairs store

/-- Pagination options of a secondary search (`pageSize` / `pageState`).  The
wire-level `pageState` is an opaque token; it is modelled as the scan offset
it encodes, with the base64/Buffer transport treated as the identity on the
token (the driver and store are assumed-correct external collaborators). -/
structure QueryOptions where
  pageSize : Option Nat := none
  pageState : Option Nat := none
deriving DecidableEq, Repr

/-- Page of a secondary query. -/
structure PageResult where
  rows : List Doc
  rowLength : Nat
  pageState : Option Nat
deriving DecidableEq, Repr

/-- JS `x || d` on an optional number: `undefined` and `0` fall back to the
default. -/
def jsOrNat (o : Option Nat) (d : Nat) : Nat :=
  match o with
  | some n => if n = 0 then d else n
  | none => d

/-- Rows of the store matching `asset_id_blockchain = ?`, in scan order. -/
def matchingAsset (store : List Doc) (v : String) : List Doc :=
  store.filter (fun r => r.assetIdBlockchain == .str v)

/-- The driver's paging contract for one `execute` with a `fetchSize` and an
optional page state: the next `fetchSize` matching rows from the encoded
offset, plus a new token exactly when matching rows remain beyond the
returned page. -/
def execSelectPage (ms : List Doc) (fetchSize : Nat) (pageState : Option Nat) : PageResult :=
  let off := pageState.getD 0
  let rows := (ms.drop off).take fetchSize
  { rows := rows
    rowLength := rows.length
    pageState := if off + rows.length < ms.length then some (off + rows.length) else none }

/-- The effective fetch size `options?.pageSize || 100` of the single-value
branch. -/
def effFetchSize (options : Option QueryOptions) : Nat :=
  match options with
  | some o => jsOrNat o.pageSize 100
  | none => 100

/-- Single-value branch of gateway `searchByAssetId` (cassandraClient.ts):
one paginated query on `asset_id_blockchain`. -/
def searchByAssetIdSingle (store : List Doc) (idAsset : String)
    (options : Option QueryOptions) : PageResult :=
  execSelectPage (matchingAsset store idAsset) (effFetchSize options)
    (options.bind QueryOptions.pageState)

/-- Batch branch of gateway `searchByAssetId`: one query per value with an
internal `fetchSize` of 1000 each (issued concurrently via `Promise.all`,
whose result preserves the order of the value list), rows concatenated in
value order, never a page token.  The `options` argument is not read by this
branch. -/
def searchByAssetIdMulti (store : List Doc) (idAsset : List String)
    (_options : Option QueryOptions) : PageResult :=
  let allRows := (idAsset.map (fun asset => (matchingAsset store asset).take 1000)).flatten
  { rows := allRows, rowLength := allRows.length, pageState := none }

/-- Argument of gateway `searchByAssetId`: a single id or an array
(`Array.isArray` dispatch). -/
inductive AssetQueryInput where
  | single (v : String)
  | multiple (vs : List String)
deriving DecidableEq, Repr

/-- Gateway `searchByAssetId` (cassandraClient.ts), both branches. -/
def searchByAssetId (store : List Doc) :
    AssetQueryInput → Option QueryOptions → PageResult
  | .single v, o => searchByAssetIdSingle store v o
  | .multiple vs, o => searchByAssetIdMulti store vs o

/-- Pagination metadata block of a search response. -/
structure PaginationMeta where
  pageState : Nat
  hasMore : Bool
  pageSize : Nat
deriving DecidableEq, Repr

/-- HTTP-level outcome of the search controllers. -/
inductive SearchHttp where
  | badRequest
  | notFound
  | ok (count : Nat) (documents : List Doc) (pagination : Option PaginationMeta)
deriving DecidableEq, Repr

/-- JS truthiness of the `pageSize` request field (`0` is falsy). -/
def optNatTruthy : Option Nat → Bool
  | some n => n != 0
  | none => false

/-- Controller `searchByAssetId` (documentBase.ts): picks
`idAssets || idAsset`, builds options only when `pageSize || pageState` is
truthy, queries the gateway, answers 404 on an empty result, and attaches
pagination metadata exactly when the gateway returned a page token. -/
def searchByAssetIdController (store : List Doc) (idAsset : Option String)
    (idAssets : Option (List String)) (pageSize : Option Nat)
    (pageState : Option Nat) : SearchHttp :=
  let input : Option AssetQueryInput :=
    match idAssets with
    | some vs => some (.multiple vs)
    | none =>
      match idAsset with
      | some v => some (.single v)
      | none => none
  match input with
  | none => .badRequest
  | some inp =>
    let options : Option QueryOptions :=
      if optNatTruthy pageSize || pageState.isSome then
        some { pageSize := pageSize, pageState := pageState }
      else none
    let result := searchByAssetId store inp options
    if result.rows.length = 0 then .notFound
    else
      match result.pageState with
      | some t =>
        .ok result.rows.length result.rows
          (some { pageState := t, hasMore := true, pageSize := jsOrNat pageSize 100 })
      | none => .ok result.rows.length result.rows none

/-- Outcome of one connection attempt, as the catch clause classifies it:
success, the driver's `NoHostAvailableError`, or any other error. -/
inductive ConnOutcome where
  | success
  | noHostAvailable
  | otherErr (msg : String)
deriving DecidableEq, Repr

/-- Environment of the connect loop: what attempt number `i` (0-based, equal
to the value of the `tries` counter when the attempt is made) results in. -/
structure ConnEnv where
  attempt : Nat → ConnOutcome

/-- Observable events of the connect loop. -/
inductive ConnEv where
  | tryConnect
  | delayMs (ms : Nat)
deriving DecidableEq, Repr

/-- Result of `connectCassandra`: connected, or the raised error. -/
inductive ConnResult where
  | connected
  | raisedNoHost
  | raisedOther (msg : String)
deriving DecidableEq, Repr

/-- Recursion of `connectCassandra` (cassandraClient.ts): on
`NoHostAvailableError` the counter is incremented and, while `tries < 10`,
the call sleeps 5000 ms and retries; once the budget is exhausted the caught
error is rethrown; any other error is rethrown at once.  `budget` is the
structural fuel `10 - tries`, kept alongside the `tries` counter so the model
evaluates by reduction; with the invariant `budget = 10 - tries` the
`budget = 0` branch coincides with the exhausted-`tries` branch. -/
def connectRec (env : ConnEnv) : Nat → Nat → List ConnEv × ConnResult
  | budget + 1, tries =>
    match env.attempt tries with
    | .success => ([.tryConnect], .connected)
    | .otherErr m => ([.tryConnect], .raisedOther m)
    | .noHostAvailable =>
      if tries + 1 < 10 then
        (.tryConnect :: .delayMs 5000 :: (connectRec env budget (tries + 1)).1,
          (connectRec env budget (tries + 1)).2)
      else ([.tryConnect], .raisedNoHost)
  | 0, tries =>
    match env.attempt tries with
    | .success => ([.tryConnect], .connected)
    | .otherErr m => ([.tryConnect], .raisedOther m)
    | .noHostAvailable => ([.tryConnect], .raisedNoHost)

/-- Exported `connectCassandra`: the module-level `tries` counter starts at
0, so a fresh process makes at most 10 attempts. -/
def connectCassandra (env : ConnEnv) : List ConnEv × ConnResult :=
  connectRec env 10 0

/-- Environment of one `addDocument` request: the UUID and clock tick the
k-th insert call draws, whether the k-th driver write fails (and with what
message), and whether the rollback delete of a given id fails. -/
structure AddEnv where
  uuid : Nat → String
  now : Nat → Nat
  insertOutcome : Nat → Option String
  deleteOutcome : String → Option String

/-- Store-level events the `addDocument` controller causes, in order. -/
inductive AddEv where
  | insertAttempt (k : Nat)
  | rollbackDelete (id : String) (failed : Bool)
deriving DecidableEq, Repr

/-- HTTP-level outcome of `addDocument`. -/
inductive AddHttp where
  | okCreated (docsCreatedIds : List String)
  | err500 (message : String)
  | badRequest
deriving DecidableEq, Repr

/-- The rollback loop of `addDocument` (documentBase.ts): every id collected
in `createdDocIds` is deleted in order; a failing delete is caught, logged
and the loop continues with the next id. -/
def rollbackAll (env : AddEnv) : List String → List AddEv
  | [] => []
  | id :: ids => .rollbackDelete id (env.deleteOutcome id).isSome :: rollbackAll env ids

/-- The insert loop of `addDocument`: documents are treated and inserted
strictly in input order; after a successful insert the id is read back from
the mutated document (`treatedDoc.idDocument.toString()`) and collected; the
first failing insert aborts the loop, rolls back every collected id and
reports the original error (`error.message || 'Error creating documents'`). -/
def addLoop (env : AddEnv) : List Doc → Nat → List String → List AddEv → List AddEv × AddHttp
  | [], _, created, tr => (tr, .okCreated created)
  | d :: ds, k, created, tr =>
    match env.insertOutcome k with
    | none =>
      addLoop env ds (k + 1)
        (created ++
          [jsToString (assignIds ⟨env.uuid k, env.now k⟩ (treatDocument d)).idDocument])
        (tr ++ [.insertAttempt k])
    | some e =>
      (tr ++ [.insertAttempt k] ++ rollbackAll env created,
        .err500 (if e = "" then "Error creating documents" else e))

/-- Controller `addDocument` (documentBase.ts): a missing or empty
`documents` array is a 400; otherwise the insert loop runs. -/
def addDocumentRun (env : AddEnv) (documents : List Doc) : List AddEv × AddHttp :=
  if documents.isEmpty then ([], .badRequest)
  else addLoop env documents 0 [] []

/-- Store-level events of `removeDocuments`, in order. -/
inductive RemEv where
  | checked (id : String)
  | deletedEv (id : String)
deriving DecidableEq, Repr

/-- HTTP-level outcome of `removeDocuments`. -/
inductive RemHttp where
  | okRemoved (removedDocuments : Nat)
  | notFound (id : String)
deriving DecidableEq, Repr

/-- State after a `removeDocuments` run: the event trace, the resulting
store, and the outcome. -/
structure RemOut where
  trace : List RemEv
  store : List Doc
  http : RemHttp
deriving DecidableEq, Repr

/-- The deletion loop of `removeDocuments` (documentBase.ts): each id is
looked up with `searchByDocumentId`; an id with no row aborts the whole
request with a 404 naming that id, leaving later ids unexamined; an existing
id is deleted and the loop continues. -/
def removeGo (store : List Doc) : List String → List RemEv → List RemEv × List Doc × Option String
  | [], tr => (tr, store, none)
  | id :: ids, tr =>
    if (searchByDocumentId store id).rows.length = 0 then
      (tr ++ [.checked id], store, some id)
    else
      removeGo (deleteDocument store id) ids (tr ++ [.checked id, .deletedEv id])

/-- Controller `removeDocuments`: runs the loop and shapes the response
(200 with the full input count on success, 404 naming the first missing
id otherwise). -/
def removeDocumentsRun (store : List Doc) (docsId : List String) : RemOut :=
  let r := removeGo store docsId []
  match r.2.2 with
  | some id => { trace := r.1, store := r.2.1, http := .notFound id }
  | none => { trace := r.1, store := r.2.1, http := .okRemoved docsId.length }

/-! ## Helper lemmas about the Field Mapper -/

theorem coerceItem_coerceItem (v : JSVal) : coerceItem (coerceItem v) = coerceItem v := by
  cases v <;> rfl

theorem normalizeListField_arr (xs : List JSVal) :
    normalizeListField (.arr xs) = .arr (xs.map coerceItem) := rfl

theorem normalizeListField_shape (v : JSVal) (h1 : v ≠ .undef) (h2 : v ≠ .null) :
    ∃ xs : List JSVal, normalizeListField v = .arr (xs.map coerceItem) := by
  cases v with
  | undef => exact absurd rfl h1
  | null => exact absurd rfl h2
  | str s =>
    simp only [normalizeListField]
    cases h : jsonParse s with
    | none => exact ⟨[.str s], rfl⟩
    | some j =>
      cases j with
      | arr ys => exact ⟨ys, rfl⟩
      | undef => exact ⟨[.undef], rfl⟩
      | null => exact ⟨[.null], rfl⟩
      | bool b => exact ⟨[.bool b], rfl⟩
      | num n => exact ⟨[.num n], rfl⟩
      | str t => exact ⟨[.str t], rfl⟩
      | obj fs => exact ⟨[.obj fs], rfl⟩
      | date dd => exact ⟨[.date dd], rfl⟩
  | arr xs => exact ⟨xs, rfl⟩
  | bool b => exact ⟨[.bool b], rfl⟩
  | num n => exact ⟨[.num n], rfl⟩
  | obj fs => exact ⟨[.obj fs], rfl⟩
  | date dd => exact ⟨[.date dd], rfl⟩

theorem normalizeListField_idem (v : JSVal) :
    normalizeListField (normalizeListField v) = normalizeListField v := by
  by_cases h1 : v = .undef
  · subst h1; rfl
  by_cases h2 : v = .null
  · subst h2; rfl
  obtain ⟨xs, hx⟩ := normalizeListField_shape v h1 h2
  rw [hx, normalizeListField_arr, List.map_map]
  congr 1
  exact List.map_congr_left (fun a _ => coerceItem_coerceItem a)

/-- Canonical record form of the Field Mapper's output. -/
theorem prepare_eq (d : Doc) :
    prepareDocumentForCassandra d =
      { d with
        groupedBy := normalizeListField d.groupedBy
        groupedAssets := normalizeListField d.groupedAssets
        idExternal := normalizeListField d.idExternal
        data :=
          if jsTruthy d.data && !isStr d.data then JSVal.str (jsonStringify d.data)
          else d.data } := by
  unfold prepareDocumentForCassandra
  dsimp only
  by_cases h : (jsTruthy d.data && !isStr d.data) = true
  · rw [if_pos h, if_pos h]
  · rw [if_neg h, if_neg h]

/-- C3.  The Field Mapper `prepareDocumentForCassandra` is idempotent: for
every input document — whatever its list-typed fields `groupedBy`,
`groupedAssets`, `idExternal` hold (arrays, JSON-string arrays, scalar
strings, or any other runtime value) — applying it twice yields the same
storage record as applying it once. -/
theorem C3_prepareDocumentForCassandra_idempotent (d : Doc) :
    prepareDocumentForCassandra (prepareDocumentForCassandra d) =
      prepareDocumentForCassandra d := by
  rw [prepare_eq d, prepare_eq]
  dsimp only
  by_cases h : (jsTruthy d.data && !isStr d.data) = true
  · rw [if_pos h]
    simp [normalizeListField_idem, isStr]
  · rw [if_neg h]
    simp [normalizeListField_idem, h]

/-! ## Round trip of the list-typed fields through JSON serialization -/

/-- Strings whose characters are all non-control (no `\uXXXX` escapes are
needed to serialize them). -/
def NoCtrl (s : String) : Prop := ∀ c ∈ s.data, 32 ≤ c.toNat

instance (s : String) : Decidable (NoCtrl s) := by
  unfold NoCtrl; infer_instance

theorem parseStrBody_quote (rest acc : List Char) :
    parseStrBody ('"' :: rest) acc = some (String.mk acc.reverse, rest) := by
  conv_lhs => unfold parseStrBody
  simp

theorem parseStrBody_escq (rest acc : List Char) :
    parseStrBody ('\\' :: '"' :: rest) acc = parseStrBody rest ('"' :: acc) := by
  conv_lhs => unfold parseStrBody
  simp

theorem parseStrBody_escb (rest acc : List Char) :
    parseStrBody ('\\' :: '\\' :: rest) acc = parseStrBody rest ('\\' :: acc) := by
  conv_lhs => unfold parseStrBody
  simp

theorem parseStrBody_plain (c : Char) (rest acc : List Char) (h1 : c ≠ '"')
    (h2 : c ≠ '\\') (h3 : 32 ≤ c.toNat) :
    parseStrBody (c :: rest) acc = parseStrBody rest (c :: acc) := by
  conv_lhs => unfold parseStrBody
  rw [if_neg h1, if_neg h2, if_neg (by omega)]

theorem escChar_plain (c : Char) (h1 : c ≠ '"') (h2 : c ≠ '\\') (h3 : 32 ≤ c.toNat) :
    escChar c = [c] := by
  unfold escChar
  rw [if_neg h1, if_neg h2]
  rw [if_neg, if_neg, if_neg, if_neg, if_neg, if_neg (by omega)]
  all_goals
    intro hcc
    subst hcc
    revert h3
    decide

theorem parseStrBody_esc (cs : List Char) :
    ∀ (acc rest : List Char), (∀ c ∈ cs, 32 ≤ c.toNat) →
      parseStrBody (cs.flatMap escChar ++ '"' :: rest) acc =
        some (String.mk (acc.reverse ++ cs), rest) := by
  induction cs with
  | nil =>
    intro acc rest _
    simp [parseStrBody_quote]
  | cons c cs ih =>
    intro acc rest hok
    have hc : 32 ≤ c.toNat := hok c (List.mem_cons_self c cs)
    have hcs : ∀ x ∈ cs, 32 ≤ x.toNat := fun x hx => hok x (List.mem_cons_of_mem c hx)
    rw [List.flatMap_cons, List.append_assoc]
    by_cases hq : c = '"'
    · subst hq
      rw [show escChar '"' = ['\\', '"'] from by decide]
      rw [List.cons_append, List.cons_append, List.nil_append, parseStrBody_escq,
        ih ('"' :: acc) rest hcs]
      simp
    · by_cases hb : c = '\\'
      · subst hb
        rw [show escChar '\\' = ['\\', '\\'] from by decide]
        rw [List.cons_append, List.cons_append, List.nil_append, parseStrBody_escb,
          ih ('\\' :: acc) rest hcs]
        simp
      · rw [escChar_plain c hq hb hc, List.cons_append, List.nil_append,
          parseStrBody_plain c _ acc hq hb hc, ih (c :: acc) rest hcs]
        simp


theorem skipWs_nonws (c : Char) (l : List Char)
    (h : ¬(c = ' ' ∨ c = '\n' ∨ c = '\t' ∨ c = '\r')) : skipWs (c :: l) = c :: l := by
  unfold skipWs
  rw [if_neg h]

theorem parseVal_str (f : Nat) (s : String) (rest : List Char) (h : NoCtrl s) :
    parseVal (f + 1) (stringifyL (.str s) ++ rest) = some (.str s, rest) := by
  have he : stringifyL (.str s) ++ rest = '"' :: (s.data.flatMap escChar ++ '"' :: rest) := by
    simp [stringifyL]
  rw [he]
  conv_lhs => unfold parseVal
  rw [skipWs_nonws _ _ (by decide)]
  simp [parseStrBody_esc s.data [] rest h]


theorem parseVal_quoteHead (f : Nat) (tail : List Char) :
    parseVal (f + 1) ('"' :: tail) =
      (parseStrBody tail []).map (fun p => (.str p.1, p.2)) := by
  conv_lhs => unfold parseVal
  rw [skipWs_nonws _ _ (by decide)]
  split <;> simp_all

theorem parseVal_bracketHead (f : Nat) (tail : List Char) :
    parseVal (f + 1) ('[' :: tail) =
      (match skipWs tail with
       | ']' :: r2 => some (.arr [], r2)
       | _ => (parseElems f tail).map (fun p => (.arr p.1, p.2))) := by
  conv_lhs => unfold parseVal
  rw [skipWs_nonws _ _ (by decide)]
  split <;> simp_all


theorem parseElems_step (f : Nat) (cs : List Char) :
    parseElems (f + 1) cs =
      (parseVal f cs).bind (fun p =>
        match skipWs p.2 with
        | ',' :: r2 => (parseElems f r2).map (fun q => (p.1 :: q.1, q.2))
        | ']' :: r2 => some ([p.1], r2)
        | _ => none) := by
  conv_lhs => unfold parseElems

theorem parseElems_strs (xs : List String) :
    ∀ (f : Nat) (rest : List Char), xs ≠ [] → xs.length + 1 ≤ f →
      (∀ s ∈ xs, NoCtrl s) →
      parseElems f (stringifyArr (xs.map JSVal.str) ++ ']' :: rest) =
        some (xs.map JSVal.str, rest) := by
  induction xs with
  | nil => intro f rest hne _ _; exact absurd rfl hne
  | cons x xs ih =>
    intro f rest _ hf hok
    simp only [List.length_cons] at hf
    have hx : NoCtrl x := hok x (List.mem_cons_self x xs)
    have hxs : ∀ s ∈ xs, NoCtrl s := fun s hs => hok s (List.mem_cons_of_mem x hs)
    obtain ⟨f1, rfl⟩ : ∃ f1, f = f1 + 1 := ⟨f - 1, by omega⟩
    obtain ⟨f2, rfl⟩ : ∃ f2, f1 = f2 + 1 := ⟨f1 - 1, by omega⟩
    cases xs with
    | nil =>
      rw [show stringifyArr ([x].map JSVal.str) = stringifyL (.str x) from rfl]
      rw [parseElems_step, parseVal_str f2 x (']' :: rest) hx]
      simp only [Option.some_bind]
      rw [skipWs_nonws _ _ (by decide)]
      split <;> simp_all
    | cons y ys =>
      rw [show stringifyArr ((x :: y :: ys).map JSVal.str) =
          stringifyL (.str x) ++ ',' :: stringifyArr ((y :: ys).map JSVal.str) from rfl]
      rw [List.append_assoc, List.cons_append]
      rw [parseElems_step, parseVal_str f2 x _ hx]
      simp only [Option.some_bind]
      rw [skipWs_nonws _ _ (by decide)]
      have hf2 : (y :: ys).length + 1 ≤ f2 + 1 := by omega
      rw [show (match ',' :: (stringifyArr (List.map JSVal.str (y :: ys)) ++ ']' :: rest) with
          | ',' :: r2 => Option.map (fun q => (JSVal.str x :: q.1, q.2)) (parseElems (f2 + 1) r2)
          | ']' :: r2 => some ([JSVal.str x], r2)
          | _ => (none : Option (List JSVal × List Char))) =
          Option.map (fun q => (JSVal.str x :: q.1, q.2))
            (parseElems (f2 + 1) (stringifyArr (List.map JSVal.str (y :: ys)) ++ ']' :: rest))
        from by split <;> simp_all]
      rw [ih (f2 + 1) rest (by simp) hf2 hxs]
      rfl


theorem parseVal_arrstrs (f : Nat) (xs : List String) (rest : List Char)
    (hf : xs.length + 2 ≤ f) (hok : ∀ s ∈ xs, NoCtrl s) :
    parseVal f (stringifyL (.arr (xs.map JSVal.str)) ++ rest) =
      some (.arr (xs.map JSVal.str), rest) := by
  obtain ⟨f1, rfl⟩ : ∃ f1, f = f1 + 1 := ⟨f - 1, by omega⟩
  cases xs with
  | nil =>
    rw [show stringifyL (.arr ([].map JSVal.str)) ++ rest = '[' :: ']' :: rest from rfl]
    rw [parseVal_bracketHead]
    rw [skipWs_nonws _ _ (by decide)]
    split <;> simp_all
  | cons x xs =>
    simp only [List.length_cons] at hf
    have hbody : stringifyL (.arr ((x :: xs).map JSVal.str)) ++ rest =
        '[' :: (stringifyArr ((x :: xs).map JSVal.str) ++ ']' :: rest) := by
      simp [stringifyL]
    rw [hbody, parseVal_bracketHead]
    have hhead : ∃ t, stringifyArr ((x :: xs).map JSVal.str) ++ ']' :: rest = '"' :: t := by
      cases xs with
      | nil => exact ⟨_, rfl⟩
      | cons y ys => exact ⟨_, rfl⟩
    obtain ⟨t, ht⟩ := hhead
    rw [ht, skipWs_nonws _ _ (by decide)]
    rw [show (match ('"' :: t : List Char) with
        | ']' :: r2 => some (JSVal.arr [], r2)
        | _ => Option.map (fun p => (JSVal.arr p.1, p.2)) (parseElems f1 ('"' :: t))) =
        Option.map (fun p => (JSVal.arr p.1, p.2)) (parseElems f1 ('"' :: t))
      from by split <;> simp_all]
    rw [← ht, parseElems_strs (x :: xs) f1 rest (by simp) (by simp; omega) hok]
    rfl

theorem stringifyArr_length_ge (xs : List String) :
    xs.length ≤ (stringifyArr (xs.map JSVal.str)).length := by
  induction xs with
  | nil => simp [stringifyArr]
  | cons x xs ih =>
    cases xs with
    | nil => simp [stringifyArr, stringifyL]
    | cons y ys =>
      rw [show stringifyArr ((x :: y :: ys).map JSVal.str) =
          stringifyL (.str x) ++ ',' :: stringifyArr ((y :: ys).map JSVal.str) from rfl]
      simp only [List.length_append, List.length_cons] at ih ⊢
      omega

theorem jsonParse_stringify_strs (xs : List String) (hok : ∀ s ∈ xs, NoCtrl s) :
    jsonParse (jsonStringify (.arr (xs.map JSVal.str))) = some (.arr (xs.map JSVal.str)) := by
  unfold jsonParse jsonStringify
  have hdata : (String.mk (stringifyL (.arr (xs.map JSVal.str)))).data =
      stringifyL (.arr (xs.map JSVal.str)) := rfl
  rw [hdata]
  have hlen : xs.length + 2 ≤ 2 * (stringifyL (.arr (xs.map JSVal.str))).length + 2 := by
    have h1 := stringifyArr_length_ge xs
    have h2 : (stringifyL (.arr (xs.map JSVal.str))).length =
        (stringifyArr (xs.map JSVal.str)).length + 2 := by
      simp [stringifyL]
    omega
  rw [show stringifyL (.arr (xs.map JSVal.str)) =
      stringifyL (.arr (xs.map JSVal.str)) ++ [] from by simp]
  rw [parseVal_arrstrs _ xs [] (by simpa using hlen) hok]
  simp [skipWs]

theorem normalizeListField_roundtrip (xs : List String) (hok : ∀ s ∈ xs, NoCtrl s) :
    normalizeListField (.str (jsonStringify (.arr (xs.map JSVal.str)))) =
      .arr (xs.map JSVal.str) := by
  simp only [normalizeListField, jsonParse_stringify_strs xs hok, List.map_map]
  exact congrArg JSVal.arr (List.map_congr_left (fun a _ => rfl))



/-! ## C1: Add followed by PointSearch -/

/-- Add of a single draft document immediately followed by a PointSearch on
the assigned id: `treatDocument`, then `insertDocument`, then
`searchByDocumentId` on the id the insert assigned, with no operation in
between. -/
def addThenPointSearch (env : InsertEnv) (store : List Doc) (d : Doc) : QueryResult :=
  let treated := treatDocument d
  let out := insertDocument env store treated
  searchByDocumentId out.store env.uuid

/-- Schema-shaped content of an optional list field: absent, or an array of
strings free of control characters. -/
def ListFieldOk (v : JSVal) : Prop :=
  v = .undef ∨ ∃ xs : List String, v = .arr (xs.map JSVal.str) ∧ ∀ s ∈ xs, NoCtrl s

/-- What a list field stored via the treat/prepare pipeline reads back as:
`null` for an absent field, the original array otherwise. -/
def listFieldBack (v : JSVal) : JSVal :=
  if v = .undef then .null else v

theorem treat_listField_roundtrip (v : JSVal) (h : ListFieldOk v) :
    normalizeListField (if jsTruthy v then .str (jsonStringify v) else .null) =
      listFieldBack v := by
  rcases h with rfl | ⟨xs, rfl, hok⟩
  · rfl
  · rw [if_pos (by rfl)]
    rw [normalizeListField_roundtrip xs hok]
    rfl

theorem prepare_idDocument (d : Doc) :
    (prepareDocumentForCassandra d).idDocument = d.idDocument := by
  rw [prepare_eq]

/-- Concrete draft document for the C1 scenario. -/
def c1Doc : Doc :=
  { idAsset := .str "asset-1"
    owner := .str "0xabc"
    operation := .str "CREATE_ASSET"
    processId := .str "p1"
    natureId := .str "n1"
    stageId := .str "s1"
    data := .arr [.obj [("k", .str "v")]]
    dataHash := .str "h1"
    channelName := .str "main"
    txHash := .str "0x0"
    blockNumber := .str "0"
    timestamp := .str "2024-01-01T00:00:00Z"
    idExternal := .arr [.str "e1", .str "e2"] }

/-- Concrete insert environment for the C1 scenario. -/
def c1Env : InsertEnv := { uuid := "11111111-2222-3333-4444-555555555555", nowTick := 7 }

/-- C1, counterexample.  The claim says PointSearch immediately after Add
returns a document equal to the draft in every field except the generated
`idDocument` and the creation timestamp.  On the concrete draft `c1Doc`,
whose `data` is an array of one object, the single returned row carries
`data` as the JSON-serialized string, not the original array: the read path
returns rows as stored and never deserializes `data`, so the returned
document is not equal to the draft at the `data` field. -/
theorem C1_point_search_after_add_counterexample :
    (addThenPointSearch c1Env [] c1Doc).rowLength = 1 ∧
      ∀ r ∈ (addThenPointSearch c1Env [] c1Doc).rows, r.data ≠ c1Doc.data := by
  decide

/-- C1 as amended.  For every schema-shaped draft `d` (its optional list
fields absent or arrays of control-character-free strings) and a store not
already holding the fresh id, PointSearch immediately after Add returns
exactly one document, which agrees with `d` on every field except that:
`idDocument` and `createdAt` are the generated id and creation timestamp;
`timestamp` comes back as the `Date` parsed from `d.timestamp`; `data` comes
back as the JSON serialization of `d.data` (content and order preserved
inside the string); the `idExternal` / `groupedBy` / `groupedAssets` arrays
come back with order and element values preserved exactly when present and
as `null` when absent; and fields `d` did not carry come back as `null`. -/
theorem C1_point_search_after_add_amended (env : InsertEnv) (store : List Doc) (d : Doc)
    (hfresh : ∀ r ∈ store, r.idDocument ≠ .str env.uuid)
    (hIE : ListFieldOk d.idExternal) (hGB : ListFieldOk d.groupedBy)
    (hGA : ListFieldOk d.groupedAssets) :
    (addThenPointSearch env store d).rows =
      [toRow
        { d with
          idDocument := .str env.uuid
          createdAt := .date (.nowTick env.nowTick)
          timestamp := .date (jsNewDate d.timestamp)
          data := .str (jsonStringify d.data)
          idExternal := listFieldBack d.idExternal
          groupedBy := listFieldBack d.groupedBy
          groupedAssets := listFieldBack d.groupedAssets }] := by
  unfold addThenPointSearch insertDocument searchByDocumentId
  dsimp only
  rw [List.filter_append]
  have h1 : store.filter (fun r => r.idDocument == .str env.uuid) = [] := by
    rw [List.filter_eq_nil_iff]
    intro r hr
    simpa using hfresh r hr
  have h2 : (prepareDocumentForCassandra (assignIds env (treatDocument d))).idDocument =
      .str env.uuid := by
    rw [prepare_idDocument]
    rfl
  have h3 : (toRow (prepareDocumentForCassandra (assignIds env (treatDocument d)))).idDocument
      = .str env.uuid := by
    show undefToNull (prepareDocumentForCassandra (assignIds env (treatDocument d))).idDocument
      = .str env.uuid
    rw [h2]
    rfl
  rw [h1, List.nil_append]
  rw [List.filter_cons_of_pos (by simp [h3]), List.filter_nil]
  congr 1
  congr 1
  rw [prepare_eq]
  dsimp only [assignIds, treatDocument]
  rw [treat_listField_roundtrip _ hIE, treat_listField_roundtrip _ hGB,
    treat_listField_roundtrip _ hGA]
  simp [isStr]

/-- Witness for the amended C1 theorem at the concrete scenario. -/
theorem C1_point_search_after_add_witness :
    (∀ r ∈ ([] : List Doc), r.idDocument ≠ .str c1Env.uuid) ∧
      ListFieldOk c1Doc.idExternal ∧ ListFieldOk c1Doc.groupedBy ∧
      ListFieldOk c1Doc.groupedAssets ∧
      (addThenPointSearch c1Env [] c1Doc).rows =
        [toRow
          { c1Doc with
            idDocument := .str c1Env.uuid
            createdAt := .date (.nowTick c1Env.nowTick)
            timestamp := .date (jsNewDate c1Doc.timestamp)
            data := .str (jsonStringify c1Doc.data)
            idExternal := listFieldBack c1Doc.idExternal
            groupedBy := listFieldBack c1Doc.groupedBy
            groupedAssets := listFieldBack c1Doc.groupedAssets }] := by
  refine ⟨by simp, Or.inr ⟨["e1", "e2"], rfl, by decide⟩, Or.inl rfl, Or.inl rfl, ?_⟩
  exact C1_point_search_after_add_amended c1Env [] c1Doc (by simp)
    (Or.inr ⟨["e1", "e2"], rfl, by decide⟩) (Or.inl rfl) (Or.inl rfl)

/-! ## C8 and C10: what Insert returns and what it mutates -/

/-- C8, counterexample.  The claim says Insert "returns the assigned id to
the caller as its result value".  `insertDocument` returns the mapper's
`Result` (`return result`), which is the same empty result set whatever id
was assigned, so no reading of the return value can recover the assigned
id: a function extracting the id from the return value would have to map
the one value `{ rows := [] }` to two different uuids. -/
theorem C8_insert_returns_id_counterexample :
    ¬∃ f : MapperResult → String,
      ∀ (env : InsertEnv) (store : List Doc) (d : Doc),
        f (insertDocument env store d).ret = env.uuid := by
  rintro ⟨f, hf⟩
  have h1 := hf { uuid := "u-one", nowTick := 0 } [] {}
  have h2 := hf { uuid := "u-two", nowTick := 0 } [] {}
  rw [show (insertDocument { uuid := "u-one", nowTick := 0 } [] {}).ret =
      (insertDocument { uuid := "u-two", nowTick := 0 } [] {}).ret from rfl] at h1
  rw [h1] at h2
  exact absurd h2 (by decide)

/-- C8 as amended.  Insert assigns a fresh id and creation timestamp (onto
its argument), applies the Field Mapper, and writes the full prepared
record — every column — to the store; but its result value is the driver's
insert `Result` (an empty row set), and the assigned id reaches the caller
through the mutated document argument, not through the return value. -/
theorem C8_insert_amended (env : InsertEnv) (store : List Doc) (d : Doc) :
    (insertDocument env store d).doc =
        { d with idDocument := .str env.uuid, createdAt := .date (.nowTick env.nowTick) } ∧
      (insertDocument env store d).store =
        store ++ [toRow (prepareDocumentForCassandra (insertDocument env store d).doc)] ∧
      (insertDocument env store d).ret = { rows := [] } ∧
      (insertDocument env store d).doc.idDocument = .str env.uuid :=
  ⟨rfl, rfl, rfl, rfl⟩

/-- C10.  Insert mutates its document argument in place: after the call
exactly `idDocument` and `createdAt` have been set on the caller's document
(the record-update equality says every other field is unchanged), the
assigned id is readable from the mutated argument, and the return value is
one constant empty result set — identical across all environments, stores
and documents — so the id is observable only through the mutated argument. -/
theorem C10_insert_mutates_argument (env : InsertEnv) (store : List Doc) (d : Doc) :
    (insertDocument env store d).doc =
        { d with idDocument := .str env.uuid, createdAt := .date (.nowTick env.nowTick) } ∧
      (insertDocument env store d).doc.idDocument = .str env.uuid ∧
      ∀ (env2 : InsertEnv) (store2 : List Doc) (d2 : Doc),
        (insertDocument env store d).ret = (insertDocument env2 store2 d2).ret :=
  ⟨rfl, rfl, fun _ _ _ => rfl⟩


/-! ## C9: immutability of the primary key -/

theorem columnSetters_preserve :
    ∀ p ∈ columnSetters, ∀ (r : Doc) (v : JSVal), (p.2 r v).idDocument = r.idDocument := by
  intro p hp
  fin_cases hp <;> (intro r v; rfl)

theorem lookup_mem_preserve :
    ∀ (tbl : List (String × (Doc → JSVal → Doc))),
      (∀ p ∈ tbl, ∀ (r : Doc) (v : JSVal), (p.2 r v).idDocument = r.idDocument) →
      ∀ (c : String) (f : Doc → JSVal → Doc), tbl.lookup c = some f →
        ∀ (r : Doc) (v : JSVal), (f r v).idDocument = r.idDocument := by
  intro tbl
  induction tbl with
  | nil => intro _ c f hf; simp [List.lookup] at hf
  | cons p t ih =>
    intro hall c f hf r v
    rw [List.lookup_cons] at hf
    by_cases hc : (c == p.1) = true
    · rw [hc] at hf
      simp only [] at hf
      injection hf with hf
      rw [← hf]
      exact hall p (List.mem_cons_self p t) r v
    · rw [Bool.not_eq_true] at hc
      rw [hc] at hf
      simp only [] at hf
      exact ih (fun q hq => hall q (List.mem_cons_of_mem p hq)) c f hf r v

theorem setColumn_idDocument (r : Doc) (c : String) (v : JSVal) (r2 : Doc)
    (h : setColumn r c v = some r2) : r2.idDocument = r.idDocument := by
  unfold setColumn at h
  by_cases h0 : c = "id_document"
  · rw [if_pos h0] at h; exact Option.noConfusion h
  · rw [if_neg h0] at h
    cases hl : columnSetters.lookup c with
    | none => rw [hl] at h; exact Option.noConfusion h
    | some f =>
      rw [hl] at h
      injection h with h2
      rw [← h2]
      exact lookup_mem_preserve columnSetters columnSetters_preserve c f hl r v

theorem applySets_idDocument (ps : List (String × JSVal)) :
    ∀ (r r2 : Doc), applySets r ps = some r2 → r2.idDocument = r.idDocument := by
  induction ps with
  | nil => intro r r2 h; simp [applySets] at h; rw [h]
  | cons p ps ih =>
    intro r r2 h
    simp only [applySets, Option.bind_eq_some] at h
    obtain ⟨a, ha, hrest⟩ := h
    rw [ih a r2 hrest, setColumn_idDocument r p.1 p.2 a ha]

theorem applyUpdateRows_spec (id : String) (ps : List (String × JSVal)) :
    ∀ (store store' : List Doc), applyUpdateRows id ps store = some store' →
      ∀ i : Nat,
        store'[i]?.map Doc.idDocument = store[i]?.map Doc.idDocument ∧
          (∀ r, store[i]? = some r → r.idDocument ≠ .str id → store'[i]? = some r) := by
  intro store
  induction store with
  | nil =>
    intro store' h i
    simp [applyUpdateRows] at h
    subst h
    simp
  | cons r rest ih =>
    intro store' h i
    simp only [applyUpdateRows, Option.bind_eq_some, Option.map_eq_some'] at h
    obtain ⟨a, ha, rest', hrest, rfl⟩ := h
    have hhead : a.idDocument = r.idDocument ∧ (r.idDocument ≠ .str id → a = r) := by
      by_cases hb : (r.idDocument == JSVal.str id) = true
      · rw [if_pos hb] at ha
        exact ⟨applySets_idDocument ps r a ha, fun hne => absurd (by simpa using hb) hne⟩
      · rw [if_neg hb] at ha
        simp at ha
        exact ⟨by rw [ha], fun _ => by rw [ha]⟩
    cases i with
    | zero =>
      constructor
      · simp [hhead.1]
      · intro rr hrr hne
        simp only [List.getElem?_cons_zero, Option.some.injEq] at hrr
        subst hrr
        simp only [List.getElem?_cons_zero, Option.some.injEq]
        exact hhead.2 hne
    | succ n => simpa using ih rest' hrest n


/-- C9.  `idDocument` is assigned exactly once, at Insert, and no subsequent
operation changes it; it is the sole key of point lookups, updates and
deletes.  Conjuncts: (1) Insert writes a record whose `id_document` is the
freshly generated uuid (whatever `idDocument` the draft carried); (2) an
UPDATE with any field map either is rejected by the store (no change) or
succeeds leaving every row's `idDocument` unchanged — and rows whose
`idDocument` differs from the WHERE key are untouched entirely; (3) Delete
removes exactly the rows whose `idDocument` equals the given id; (4) a point
query returns exactly the rows whose `idDocument` equals the given id. -/
theorem C9_idDocument_immutable :
    (∀ (env : InsertEnv) (store : List Doc) (d : Doc),
      (insertDocument env store d).store =
          store ++ [toRow (prepareDocumentForCassandra (assignIds env d))] ∧
        (toRow (prepareDocumentForCassandra (assignIds env d))).idDocument = .str env.uuid) ∧
    (∀ (store : List Doc) (id : String) (updates : List (String × JSVal))
        (store' : List Doc),
      updateDocument store id updates = some store' →
        ∀ i : Nat,
          store'[i]?.map Doc.idDocument = store[i]?.map Doc.idDocument ∧
            (∀ r, store[i]? = some r → r.idDocument ≠ .str id → store'[i]? = some r)) ∧
    (∀ (store : List Doc) (id : String) (r : Doc),
      r ∈ deleteDocument store id ↔ r ∈ store ∧ r.idDocument ≠ .str id) ∧
    (∀ (store : List Doc) (id : String) (r : Doc),
      r ∈ (searchByDocumentId store id).rows ↔ r ∈ store ∧ r.idDocument = .str id) := by
  refine ⟨?_, ?_, ?_, ?_⟩
  · intro env store d
    refine ⟨rfl, ?_⟩
    show undefToNull (prepareDocumentForCassandra (assignIds env d)).idDocument = .str env.uuid
    rw [prepare_idDocument]
    rfl
  · intro store id updates store' h i
    unfold updateDocument at h
    by_cases h0 : (updates.map
        (fun kv => ((fieldMapping kv.1).getD kv.1, kv.2))).length = 0
    · rw [if_pos h0] at h
      injection h with h2
      subst h2
      exact ⟨rfl, fun r hr _ => hr⟩
    · rw [if_neg h0] at h
      exact applyUpdateRows_spec id _ store store' h i
  · intro store id r
    unfold deleteDocument
    rw [List.mem_filter]
    simp [bne_iff_ne]
  · intro store id r
    unfold searchByDocumentId
    rw [List.mem_filter]
    simp

/-- Concrete row for the C9 witness. -/
def c9Doc : Doc := { idDocument := .str "id-9", status := .str "OLD" }

/-- The row after the witness update. -/
def c9Updated : Doc := { c9Doc with status := .str "X", txHash := .str "0x9" }

/-- Witness for C9 at a concrete update: a two-field update succeeds and
leaves `idDocument` unchanged. -/
theorem C9_idDocument_immutable_witness :
    updateDocument [c9Doc] "id-9" [("status", .str "X"), ("txHash", .str "0x9")] =
        some [c9Updated] ∧
      ([c9Updated][0]?.map Doc.idDocument = [c9Doc][0]?.map Doc.idDocument) :=
  ⟨by decide,
    (C9_idDocument_immutable.2.1 [c9Doc] "id-9"
      [("status", .str "X"), ("txHash", .str "0x9")] [c9Updated] (by decide) 0).1⟩


/-! ## C4 and C5: secondary search pagination and batch mode -/

theorem searchSingle_eq (store : List Doc) (v : String) (o : Option QueryOptions) :
    searchByAssetIdSingle store v o =
      execSelectPage (matchingAsset store v) (effFetchSize o)
        (o.bind QueryOptions.pageState) := rfl

theorem effFetchSize_none : effFetchSize none = 100 := rfl

theorem effFetchSize_noSize (pst : Option Nat) :
    effFetchSize (some { pageSize := none, pageState := pst }) = 100 := rfl

theorem effFetchSize_size (n : Nat) (pst : Option Nat) (h : n ≠ 0) :
    effFetchSize (some { pageSize := some n, pageState := pst }) = n := by
  simp [effFetchSize, jsOrNat, h]

theorem optionsBind_pageState (ps pst : Option Nat) :
    ((some { pageSize := ps, pageState := pst } : Option QueryOptions).bind
      QueryOptions.pageState) = pst := rfl

theorem execSelectPage_rows (ms : List Doc) (f : Nat) (pst : Option Nat) :
    (execSelectPage ms f pst).rows = (ms.drop (pst.getD 0)).take f := rfl

theorem execSelectPage_rowLength (ms : List Doc) (f : Nat) (pst : Option Nat) :
    (execSelectPage ms f pst).rowLength = ((ms.drop (pst.getD 0)).take f).length := rfl

theorem execSelectPage_pageState (ms : List Doc) (f : Nat) (pst : Option Nat) :
    (execSelectPage ms f pst).pageState =
      if pst.getD 0 + ((ms.drop (pst.getD 0)).take f).length < ms.length then
        some (pst.getD 0 + ((ms.drop (pst.getD 0)).take f).length)
      else none := rfl

theorem C4_single_pagination (store : List Doc) (v : String) :
    (searchByAssetIdSingle store v none =
        execSelectPage (matchingAsset store v) 100 none) ∧
    (∀ pst : Option Nat,
      searchByAssetIdSingle store v (some { pageSize := none, pageState := pst }) =
        execSelectPage (matchingAsset store v) 100 pst) ∧
    (∀ o : Option QueryOptions,
      (searchByAssetIdSingle store v o).rows =
          ((matchingAsset store v).drop ((o.bind QueryOptions.pageState).getD 0)).take
            (effFetchSize o) ∧
        ((searchByAssetIdSingle store v o).pageState.isSome ↔
          (o.bind QueryOptions.pageState).getD 0 +
              (searchByAssetIdSingle store v o).rows.length <
            (matchingAsset store v).length) ∧
        (∀ t, (searchByAssetIdSingle store v o).pageState = some t →
          t = (o.bind QueryOptions.pageState).getD 0 +
            (searchByAssetIdSingle store v o).rows.length)) ∧
    (∀ (o : Option QueryOptions) (t : Nat),
      (searchByAssetIdSingle store v o).pageState = some t →
        (matchingAsset store v).length - t ≤ 100 →
        (searchByAssetIdSingle store v
              (some { pageSize := none, pageState := some t })).rows =
            (matchingAsset store v).drop t ∧
          (searchByAssetIdSingle store v
            (some { pageSize := none, pageState := some t })).pageState = none) ∧
    ((matchingAsset store v).length = 5 →
      (searchByAssetIdSingle store v
            (some { pageSize := some 2, pageState := none })).rows =
          (matchingAsset store v).take 2 ∧
        (searchByAssetIdSingle store v
            (some { pageSize := some 2, pageState := none })).rowLength = 2 ∧
        (searchByAssetIdSingle store v
            (some { pageSize := some 2, pageState := none })).pageState = some 2 ∧
        (searchByAssetIdSingle store v
              (some { pageSize := none, pageState := some 2 })).rows =
            (matchingAsset store v).drop 2 ∧
          (searchByAssetIdSingle store v
              (some { pageSize := none, pageState := some 2 })).rowLength = 3 ∧
        (searchByAssetIdSingle store v
          (some { pageSize := none, pageState := some 2 })).pageState = none) := by
  refine ⟨rfl, fun pst => rfl, ?_, ?_, ?_⟩
  · intro o
    refine ⟨rfl, ?_, ?_⟩
    · rw [searchSingle_eq, execSelectPage_pageState, execSelectPage_rows]
      split <;> simp_all
    · intro t
      rw [searchSingle_eq, execSelectPage_pageState, execSelectPage_rows]
      split
      · intro h; injection h with h; omega
      · intro h; exact Option.noConfusion h
  · intro o t hsome hrem
    have ht : t < (matchingAsset store v).length := by
      rw [searchSingle_eq, execSelectPage_pageState] at hsome
      revert hsome
      split
      · intro h
        injection h with h
        omega
      · intro h; exact Option.noConfusion h
    have hdlen : ((matchingAsset store v).drop t).length =
        (matchingAsset store v).length - t := List.length_drop t _
    constructor
    · rw [searchSingle_eq, execSelectPage_rows, effFetchSize_noSize, optionsBind_pageState,
        Option.getD_some]
      exact List.take_of_length_le (by omega)
    · rw [searchSingle_eq, execSelectPage_pageState, effFetchSize_noSize,
        optionsBind_pageState, Option.getD_some]
      rw [if_neg]
      rw [List.length_take]
      omega
  · intro h5
    have hd0 : ((matchingAsset store v).drop 0) = matchingAsset store v := List.drop_zero _
    have hl2 : ((matchingAsset store v).take 2).length = 2 := by
      rw [List.length_take]; omega
    have hd2 : ((matchingAsset store v).drop 2).length = 3 := by
      rw [List.length_drop]; omega
    have ht2 : ((matchingAsset store v).drop 2).take 100 = (matchingAsset store v).drop 2 :=
      List.take_of_length_le (by omega)
    refine ⟨?_, ?_, ?_, ?_, ?_, ?_⟩
    · rw [searchSingle_eq, execSelectPage_rows, effFetchSize_size 2 _ (by omega),
        optionsBind_pageState, Option.getD_none, hd0]
    · rw [searchSingle_eq, execSelectPage_rowLength, effFetchSize_size 2 _ (by omega),
        optionsBind_pageState, Option.getD_none, hd0, hl2]
    · rw [searchSingle_eq, execSelectPage_pageState, effFetchSize_size 2 _ (by omega),
        optionsBind_pageState, Option.getD_none, hd0, hl2, if_pos (by omega)]
    · rw [searchSingle_eq, execSelectPage_rows, effFetchSize_noSize,
        optionsBind_pageState, Option.getD_some, ht2]
    · rw [searchSingle_eq, execSelectPage_rowLength, effFetchSize_noSize,
        optionsBind_pageState, Option.getD_some, ht2, hd2]
    · rw [searchSingle_eq, execSelectPage_pageState, effFetchSize_noSize,
        optionsBind_pageState, Option.getD_some, ht2, hd2, if_neg (by omega)]


/-- One concrete matching row for the C4/C5 scenarios. -/
def c4Doc (id asset : String) : Doc :=
  { idDocument := .str id, assetIdBlockchain := .str asset }

/-- Concrete store with five documents matching asset "A". -/
def c4Store : List Doc :=
  [c4Doc "d1" "A", c4Doc "d2" "A", c4Doc "d3" "A", c4Doc "d4" "A", c4Doc "d5" "A"]

/-- Witness for C4 at the spec scenario: page size 2 over 5 matching rows. -/
theorem C4_single_pagination_witness :
    (matchingAsset c4Store "A").length = 5 ∧
      (searchByAssetIdSingle c4Store "A"
          (some { pageSize := some 2, pageState := none })).rowLength = 2 ∧
      (searchByAssetIdSingle c4Store "A"
          (some { pageSize := some 2, pageState := none })).pageState = some 2 ∧
      (searchByAssetIdSingle c4Store "A"
          (some { pageSize := none, pageState := some 2 })).rowLength = 3 ∧
      (searchByAssetIdSingle c4Store "A"
        (some { pageSize := none, pageState := some 2 })).pageState = none := by
  have h5 : (matchingAsset c4Store "A").length = 5 := by decide
  obtain ⟨-, a, b, -, c, d⟩ := (C4_single_pagination c4Store "A").2.2.2.2 h5
  exact ⟨h5, a, b, c, d⟩

/-- C5.  Batch-mode SecondarySearch: the caller's options have no effect on
the gateway result (the batch branch never reads them) nor on the
controller's response; the rows are the concatenation of the per-value
query results (each per-value query returning its first page of up to the
internal 1000-row cap) grouped in the order the values were supplied; and
no continuation token is ever returned. -/
theorem C5_batch_search (store : List Doc) (vs : List String) :
    (∀ o o' : Option QueryOptions,
      searchByAssetId store (.multiple vs) o = searchByAssetId store (.multiple vs) o') ∧
    (∀ o : Option QueryOptions,
      (searchByAssetIdMulti store vs o).rows =
        (vs.map (fun w => (matchingAsset store w).take 1000)).flatten) ∧
    (∀ o : Option QueryOptions, (searchByAssetIdMulti store vs o).pageState = none) ∧
    (∀ ps pst ps2 pst2 : Option Nat,
      searchByAssetIdController store none (some vs) ps pst =
        searchByAssetIdController store none (some vs) ps2 pst2) :=
  ⟨fun _ _ => rfl, fun _ => rfl, fun _ => rfl, fun _ _ _ _ => rfl⟩


/-! ## C7: connection retry policy -/

theorem connectRec_success (env : ConnEnv) (b t : Nat) (h : env.attempt t = .success) :
    connectRec env b t = ([.tryConnect], .connected) := by
  cases b <;> (conv_lhs => unfold connectRec) <;> rw [h]

theorem connectRec_other (env : ConnEnv) (b t : Nat) (m : String)
    (h : env.attempt t = .otherErr m) :
    connectRec env b t = ([.tryConnect], .raisedOther m) := by
  cases b <;> (conv_lhs => unfold connectRec) <;> rw [h]

theorem connectRec_noHost_retry (env : ConnEnv) (b t : Nat)
    (h : env.attempt t = .noHostAvailable) (hlt : t + 1 < 10) :
    connectRec env (b + 1) t =
      (.tryConnect :: .delayMs 5000 :: (connectRec env b (t + 1)).1,
        (connectRec env b (t + 1)).2) := by
  conv_lhs => unfold connectRec
  rw [h]
  rw [if_pos hlt]

theorem connectRec_noHost_stop (env : ConnEnv) (b t : Nat)
    (h : env.attempt t = .noHostAvailable) (hge : ¬(t + 1 < 10)) :
    connectRec env (b + 1) t = ([.tryConnect], .raisedNoHost) := by
  conv_lhs => unfold connectRec
  rw [h]
  rw [if_neg hge]


/-- Trace of `n` retried attempts followed by a final one: `n + 1` connect
attempts with a 5000 ms delay after each of the first `n`. -/
def connTrace : Nat → List ConnEv
  | 0 => [.tryConnect]
  | n + 1 => .tryConnect :: .delayMs 5000 :: connTrace n

/-- Result `connectCassandra` ends with when an attempt stops the loop. -/
def stopResult : ConnOutcome → ConnResult
  | .success => .connected
  | .noHostAvailable => .raisedNoHost
  | .otherErr m => .raisedOther m

theorem connectRec_allNoHost (env : ConnEnv) :
    ∀ (b t : Nat), (b + 1) + t = 10 →
      (∀ i, i < 10 → env.attempt i = .noHostAvailable) →
      connectRec env (b + 1) t = (connTrace b, .raisedNoHost) := by
  intro b
  induction b with
  | zero =>
    intro t h10 hall
    have ht : t = 9 := by omega
    subst ht
    exact connectRec_noHost_stop env 0 9 (hall 9 (by omega)) (by omega)
  | succ b ih =>
    intro t h10 hall
    rw [connectRec_noHost_retry env (b + 1) t (hall t (by omega)) (by omega)]
    rw [ih (t + 1) (by omega) hall]
    rfl

theorem connectRec_stopAt (env : ConnEnv) :
    ∀ (n b t : Nat), b + t = 10 → t + n < 10 →
      (∀ i, t ≤ i → i < t + n → env.attempt i = .noHostAvailable) →
      env.attempt (t + n) ≠ .noHostAvailable →
      connectRec env b t = (connTrace n, stopResult (env.attempt (t + n))) := by
  intro n
  induction n with
  | zero =>
    intro b t hb ht _ hstop
    cases hat : env.attempt t with
    | success => rw [connectRec_success env b t hat]; simp [connTrace, stopResult, hat]
    | noHostAvailable => exact absurd (by simpa using hat) hstop
    | otherErr m => rw [connectRec_other env b t m hat]; simp [connTrace, stopResult, hat]
  | succ n ih =>
    intro b t hb ht hpre hstop
    obtain ⟨b1, rfl⟩ : ∃ b1, b = b1 + 1 := ⟨b - 1, by omega⟩
    rw [connectRec_noHost_retry env b1 t (hpre t (le_refl t) (by omega)) (by omega)]
    rw [show t + (n + 1) = (t + 1) + n from by omega] at hstop ht ⊢
    rw [ih b1 (t + 1) (by omega) ht (fun i h1 h2 => hpre i (by omega) (by omega)) hstop]
    rfl

theorem connectRec_count_le (env : ConnEnv) :
    ∀ (b t : Nat), b + t = 10 → t < 10 →
      (connectRec env b t).1.count ConnEv.tryConnect ≤ 10 - t := by
  intro b
  induction b with
  | zero => intro t hb ht; omega
  | succ b ih =>
    intro t hb ht
    cases hat : env.attempt t with
    | success => rw [connectRec_success env _ t hat]; simp; omega
    | otherErr m => rw [connectRec_other env _ t m hat]; simp; omega
    | noHostAvailable =>
      by_cases hlt : t + 1 < 10
      · rw [connectRec_noHost_retry env b t hat hlt]
        have := ih (t + 1) (by omega) (by omega)
        have hc : (ConnEv.tryConnect :: ConnEv.delayMs 5000 ::
              (connectRec env b (t + 1)).1).count ConnEv.tryConnect =
            (connectRec env b (t + 1)).1.count ConnEv.tryConnect + 1 := by
          simp
        rw [hc]
        omega
      · rw [connectRec_noHost_stop env b t hat hlt]
        simp
        omega

theorem connectRec_delay_5000 (env : ConnEnv) :
    ∀ (b t : Nat) (ms : Nat),
      ConnEv.delayMs ms ∈ (connectRec env b t).1 → ms = 5000 := by
  intro b
  induction b with
  | zero =>
    intro t ms h
    cases hat : env.attempt t with
    | success => rw [connectRec_success env _ t hat] at h; simp_all
    | otherErr m => rw [connectRec_other env _ t m hat] at h; simp_all
    | noHostAvailable =>
      rw [show connectRec env 0 t = ([.tryConnect], .raisedNoHost) from by
        conv_lhs => unfold connectRec
        rw [hat]] at h
      simp_all
  | succ b ih =>
    intro t ms h
    cases hat : env.attempt t with
    | success => rw [connectRec_success env _ t hat] at h; simp_all
    | otherErr m => rw [connectRec_other env _ t m hat] at h; simp_all
    | noHostAvailable =>
      by_cases hlt : t + 1 < 10
      · rw [connectRec_noHost_retry env b t hat hlt] at h
        rcases List.mem_cons.mp h with h | h
        · exact ConnEv.noConfusion h
        rcases List.mem_cons.mp h with h | h
        · injection h with h
        · exact ih (t + 1) ms h
      · rw [connectRec_noHost_stop env b t hat hlt] at h
        simp_all

/-- C7.  `connectCassandra` retries only on the "no host available" failure
class: (1) when every attempt fails that way it makes exactly 10 attempts
with a fixed 5000 ms delay between consecutive attempts and then raises the
connection error; (2) an attempt failing with any other error class is
raised immediately — no delay after it and no further attempt; (3) a
successful attempt stops the loop the same way; (4) never more than 10
attempts are made; (5) every delay in the loop is exactly 5000 ms. -/
theorem C7_connect_retry (env : ConnEnv) :
    ((∀ i, i < 10 → env.attempt i = .noHostAvailable) →
      connectCassandra env = (connTrace 9, .raisedNoHost)) ∧
    (∀ (k : Nat) (m : String), k < 10 →
      (∀ i, i < k → env.attempt i = .noHostAvailable) →
      env.attempt k = .otherErr m →
      connectCassandra env = (connTrace k, .raisedOther m)) ∧
    (∀ k : Nat, k < 10 →
      (∀ i, i < k → env.attempt i = .noHostAvailable) →
      env.attempt k = .success →
      connectCassandra env = (connTrace k, .connected)) ∧
    ((connectCassandra env).1.count ConnEv.tryConnect ≤ 10) ∧
    (∀ ms, ConnEv.delayMs ms ∈ (connectCassandra env).1 → ms = 5000) := by
  refine ⟨?_, ?_, ?_, ?_, ?_⟩
  · intro hall
    exact connectRec_allNoHost env 9 0 (by omega) hall
  · intro k m hk hpre hat
    have := connectRec_stopAt env k 10 0 (by omega) (by omega)
      (fun i h1 h2 => hpre i (by omega)) (by simp [hat])
    simpa [stopResult, hat] using this
  · intro k hk hpre hat
    have := connectRec_stopAt env k 10 0 (by omega) (by omega)
      (fun i h1 h2 => hpre i (by omega)) (by simp [hat])
    simpa [stopResult, hat] using this
  · simpa using connectRec_count_le env 10 0 (by omega) (by omega)
  · exact fun ms h => connectRec_delay_5000 env 10 0 ms h

/-- Environment where the store is never reachable. -/
def connEnvAllNoHost : ConnEnv := { attempt := fun _ => .noHostAvailable }

/-- Environment failing twice with "no host available", then with another
error class. -/
def connEnvOtherAt2 : ConnEnv :=
  { attempt := fun i => if i < 2 then .noHostAvailable else .otherErr "boom" }

/-- Witness for C7: the retry loop exhausts its 10 attempts under permanent
"no host available", and an attempt failing with a different error class is
raised at once. -/
theorem C7_connect_retry_witness :
    connectCassandra connEnvAllNoHost = (connTrace 9, .raisedNoHost) ∧
      connectCassandra connEnvOtherAt2 = (connTrace 2, .raisedOther "boom") :=
  ⟨(C7_connect_retry connEnvAllNoHost).1 (by decide),
    (C7_connect_retry connEnvOtherAt2).2.1 2 "boom" (by decide) (by decide) (by decide)⟩


/-! ## C2: rollback on partial insert failure -/

theorem rollbackAll_eq_map (env : AddEnv) :
    ∀ ids : List String,
      rollbackAll env ids =
        ids.map (fun id => AddEv.rollbackDelete id (env.deleteOutcome id).isSome) := by
  intro ids
  induction ids with
  | nil => rfl
  | cons id ids ih => simp [rollbackAll, ih]

theorem addLoop_fail (env : AddEnv) :
    ∀ (m : Nat) (ds : List Doc) (k0 : Nat) (created : List String) (tr : List AddEv)
      (e : String),
      m < ds.length →
      (∀ i, i < m → env.insertOutcome (k0 + i) = none) →
      env.insertOutcome (k0 + m) = some e →
      addLoop env ds k0 created tr =
        (tr ++ (List.range (m + 1)).map (fun i => AddEv.insertAttempt (k0 + i)) ++
            rollbackAll env
              (created ++ (List.range m).map (fun i => env.uuid (k0 + i))),
          .err500 (if e = "" then "Error creating documents" else e)) := by
  intro m
  induction m with
  | zero =>
    intro ds k0 created tr e hlen _ hfail
    cases ds with
    | nil => simp at hlen
    | cons d ds =>
      unfold addLoop
      rw [show k0 + 0 = k0 from rfl] at hfail
      rw [hfail]
      simp [show List.range 1 = [0] from rfl]
  | succ m ih =>
    intro ds k0 created tr e hlen hpre hfail
    cases ds with
    | nil => simp at hlen
    | cons d ds =>
      unfold addLoop
      rw [show env.insertOutcome k0 = none from by simpa using hpre 0 (by omega)]
      rw [ih ds (k0 + 1) _ _ e (by simpa using hlen)
        (fun i hi => by rw [show k0 + 1 + i = k0 + (i + 1) from by omega]
                        exact hpre (i + 1) (by omega))
        (by rw [show k0 + 1 + m = k0 + (m + 1) from by omega]; exact hfail)]
      have hjs : jsToString (assignIds { uuid := env.uuid k0, nowTick := env.now k0 }
          (treatDocument d)).idDocument = env.uuid k0 := by
        simp [assignIds, jsToString]
      rw [hjs]
      have hA : (List.range (m + 1 + 1)).map (fun i => AddEv.insertAttempt (k0 + i)) =
          AddEv.insertAttempt k0 ::
            (List.range (m + 1)).map (fun i => AddEv.insertAttempt (k0 + 1 + i)) := by
        rw [List.range_succ_eq_map, List.map_cons, List.map_map]
        simp only [Nat.add_zero, List.cons.injEq, Function.comp]
        exact ⟨trivial, List.map_congr_left (fun i _ => by
          simp only [Function.comp]
          congr 1
          omega)⟩
      have hB : (List.range (m + 1)).map (fun i => env.uuid (k0 + i)) =
          env.uuid k0 :: (List.range m).map (fun i => env.uuid (k0 + 1 + i)) := by
        rw [List.range_succ_eq_map, List.map_cons, List.map_map]
        simp only [Nat.add_zero, List.cons.injEq, Function.comp]
        exact ⟨trivial, List.map_congr_left (fun i _ => by
          simp only [Function.comp]
          congr 1
          omega)⟩
      rw [hA, hB]
      simp [List.append_assoc]


/-- C2.  When the k-th insert of an `addDocument` batch fails (after k
successful inserts), the run: attempts exactly the inserts 0..k and no
later one; then attempts a rollback delete of every one of the k ids
created so far, in order, each attempt recorded with its own outcome — a
failing delete does not remove the later delete attempts from the trace;
and reports the original insert error to the caller.  Conjuncts restate
the membership facts that follow: every created id's rollback delete is in
the trace (whatever `deleteOutcome` says), and no insert attempt beyond k
is. -/
theorem C2_add_rollback (env : AddEnv) (docs : List Doc) (k : Nat) (e : String)
    (hk : k < docs.length) (hpre : ∀ i, i < k → env.insertOutcome i = none)
    (hfail : env.insertOutcome k = some e) (hne : e ≠ "") :
    addDocumentRun env docs =
      ((List.range (k + 1)).map AddEv.insertAttempt ++
          (List.range k).map (fun i =>
            AddEv.rollbackDelete (env.uuid i) (env.deleteOutcome (env.uuid i)).isSome),
        .err500 e) ∧
      (∀ i, i < k →
        AddEv.rollbackDelete (env.uuid i) (env.deleteOutcome (env.uuid i)).isSome ∈
          (addDocumentRun env docs).1) ∧
      (∀ j, k < j → AddEv.insertAttempt j ∉ (addDocumentRun env docs).1) := by
  have hrun : addDocumentRun env docs =
      ((List.range (k + 1)).map AddEv.insertAttempt ++
          (List.range k).map (fun i =>
            AddEv.rollbackDelete (env.uuid i) (env.deleteOutcome (env.uuid i)).isSome),
        .err500 e) := by
    unfold addDocumentRun
    rw [if_neg (by cases docs with
      | nil => simp at hk
      | cons d ds => simp)]
    rw [addLoop_fail env k docs 0 [] [] e hk
      (fun i hi => by simpa using hpre i hi) (by simpa using hfail)]
    rw [if_neg hne]
    rw [List.nil_append, List.nil_append, rollbackAll_eq_map]
    rw [List.map_map]
    congr 1
    congr 1
    · exact List.map_congr_left (fun i _ => by simp)
    · exact List.map_congr_left (fun i _ => by simp [Function.comp])
  refine ⟨hrun, ?_, ?_⟩
  · intro i hi
    rw [hrun]
    refine List.mem_append.mpr (Or.inr ?_)
    exact List.mem_map.mpr ⟨i, List.mem_range.mpr hi, rfl⟩
  · intro j hj hmem
    rw [hrun] at hmem
    rcases List.mem_append.mp hmem with h | h
    · obtain ⟨a, ha, hea⟩ := List.mem_map.mp h
      injection hea with hea
      rw [hea] at ha
      exact absurd (List.mem_range.mp ha) (by omega)
    · obtain ⟨a, _, hea⟩ := List.mem_map.mp h
      exact AddEv.noConfusion hea

/-- Environment of the C2 witness: the third insert fails, and the rollback
delete of the first created id itself fails. -/
def c2Env : AddEnv :=
  { uuid := fun k => "u" ++ toString k
    now := fun k => k
    insertOutcome := fun k => if k = 2 then some "boom" else none
    deleteOutcome := fun id => if id = "u0" then some "delboom" else none }

/-- Three empty drafts for the C2 witness run. -/
def c2Docs : List Doc := [{}, {}, {}]

/-- Witness for C2: with three documents and the third insert failing, the
response carries the original insert error, both created ids are attempted
in rollback (the first delete failing does not stop the second), and no
fourth insert is attempted. -/
theorem C2_add_rollback_witness :
    (2 < c2Docs.length ∧ c2Env.insertOutcome 2 = some "boom") ∧
      (addDocumentRun c2Env c2Docs).2 = .err500 "boom" ∧
      AddEv.rollbackDelete "u0" true ∈ (addDocumentRun c2Env c2Docs).1 ∧
      AddEv.rollbackDelete "u1" false ∈ (addDocumentRun c2Env c2Docs).1 ∧
      AddEv.insertAttempt 3 ∉ (addDocumentRun c2Env c2Docs).1 := by
  have H := C2_add_rollback c2Env c2Docs 2 "boom" (by decide)
    (by decide) (by decide) (by decide)
  refine ⟨⟨by decide, by decide⟩, ?_, ?_, ?_, ?_⟩
  · rw [H.1]
  · rw [H.1]; decide
  · rw [H.1]; decide
  · rw [H.1]; decide


/-! ## C6: batch removal aborts at the first missing id -/


theorem removeGo_spec (pre : List String) :
    ∀ (store : List Doc) (bad : String) (post : List String) (tr : List RemEv),
      pre.Nodup →
      (∀ id ∈ pre, ∃ r ∈ store, r.idDocument = .str id) →
      (∀ r ∈ store, r.idDocument ≠ .str bad) →
      removeGo store (pre ++ bad :: post) tr =
        (tr ++ pre.flatMap (fun id => [RemEv.checked id, RemEv.deletedEv id]) ++
            [RemEv.checked bad],
          store.filter (fun r => pre.all (fun id => r.idDocument != .str id)),
          some bad) := by
  induction pre with
  | nil =>
    intro store bad post tr _ _ habsent
    rw [List.nil_append]
    unfold removeGo
    rw [if_pos (by
      show (searchByDocumentId store bad).rows.length = 0
      unfold searchByDocumentId
      simp only [List.length_eq_zero, List.filter_eq_nil_iff]
      intro r hr
      simpa using habsent r hr)]
    simp
  | cons id pre ih =>
    intro store bad post tr hnd hpresent habsent
    obtain ⟨r0, hr0, hid0⟩ := hpresent id (List.mem_cons_self id pre)
    rw [List.cons_append]
    unfold removeGo
    rw [if_neg (by
      show ¬(searchByDocumentId store id).rows.length = 0
      unfold searchByDocumentId
      simp only [List.length_eq_zero, List.filter_eq_nil_iff]
      intro hall
      exact absurd (by simpa using hid0) (by simpa using hall r0 hr0))]
    have hnodup2 : pre.Nodup := (List.nodup_cons.mp hnd).2
    have hnotmem : id ∉ pre := (List.nodup_cons.mp hnd).1
    rw [ih (deleteDocument store id) bad post (tr ++ [RemEv.checked id, RemEv.deletedEv id])
      hnodup2
      (fun id2 h2 => by
        obtain ⟨r2, hr2, hidr2⟩ := hpresent id2 (List.mem_cons_of_mem id h2)
        refine ⟨r2, ?_, hidr2⟩
        unfold deleteDocument
        refine List.mem_filter.mpr ⟨hr2, ?_⟩
        rw [hidr2]
        simp only [bne_iff_ne, ne_eq, JSVal.str.injEq]
        intro hc
        exact hnotmem (hc ▸ h2))
      (fun r2 hr2 => habsent r2 (List.mem_filter.mp hr2).1)]
    unfold deleteDocument
    rw [List.filter_filter]
    refine congrArg₂ Prod.mk ?_ (congrArg₂ Prod.mk ?_ rfl)
    · simp [List.append_assoc]
    · refine List.filter_congr (fun r _ => ?_)
      simp [Bool.and_comm]


/-- C6.  `removeDocuments` on a list `pre ++ bad :: post` where each id of
`pre` has a row, the ids of `pre` are distinct, and `bad` has no row:
each id of `pre` is existence-checked and deleted in order, then `bad` is
checked and the whole request aborts with a 404 naming `bad`; the rows of
the `pre` ids stay deleted (no rollback); and an id that is neither among
the first deletions nor the missing id — in particular every id of `post` —
is never checked nor deleted. -/
theorem C6_remove_documents (store : List Doc) (pre : List String) (bad : String)
    (post : List String) (hnd : pre.Nodup)
    (hpresent : ∀ id ∈ pre, ∃ r ∈ store, r.idDocument = .str id)
    (habsent : ∀ r ∈ store, r.idDocument ≠ .str bad) :
    removeDocumentsRun store (pre ++ bad :: post) =
        { trace := pre.flatMap (fun id => [RemEv.checked id, RemEv.deletedEv id]) ++
            [RemEv.checked bad]
          store := store.filter (fun r => pre.all (fun id => r.idDocument != .str id))
          http := .notFound bad } ∧
      (∀ id ∈ pre, ∀ r ∈ (removeDocumentsRun store (pre ++ bad :: post)).store,
        r.idDocument ≠ .str id) ∧
      (∀ id, id ∉ pre → id ≠ bad →
        RemEv.checked id ∉ (removeDocumentsRun store (pre ++ bad :: post)).trace ∧
          RemEv.deletedEv id ∉ (removeDocumentsRun store (pre ++ bad :: post)).trace) := by
  have hgo := removeGo_spec pre store bad post [] hnd hpresent habsent
  have hrun : removeDocumentsRun store (pre ++ bad :: post) =
      { trace := pre.flatMap (fun id => [RemEv.checked id, RemEv.deletedEv id]) ++
          [RemEv.checked bad]
        store := store.filter (fun r => pre.all (fun id => r.idDocument != .str id))
        http := .notFound bad } := by
    unfold removeDocumentsRun
    rw [hgo]
    simp
  refine ⟨hrun, ?_, ?_⟩
  · intro id hid r hr
    rw [hrun] at hr
    have := (List.mem_filter.mp hr).2
    rw [List.all_eq_true] at this
    simpa using this id hid
  · intro id hpre hbad
    rw [hrun]
    constructor
    · intro hmem
      rcases List.mem_append.mp hmem with h | h
      · obtain ⟨id2, hid2, hev⟩ := List.mem_flatMap.mp h
        rcases List.mem_cons.mp hev with he | he
        · injection he with he; exact hpre (he ▸ hid2)
        · rcases List.mem_cons.mp he with he2 | he2
          · exact RemEv.noConfusion he2
          · simp at he2
      · rcases List.mem_cons.mp h with he | he
        · injection he with he; exact hbad he
        · simp at he
    · intro hmem
      rcases List.mem_append.mp hmem with h | h
      · obtain ⟨id2, hid2, hev⟩ := List.mem_flatMap.mp h
        rcases List.mem_cons.mp hev with he | he
        · exact RemEv.noConfusion he
        · rcases List.mem_cons.mp he with he2 | he2
          · injection he2 with he2; exact hpre (he2 ▸ hid2)
          · simp at he2
      · rcases List.mem_cons.mp h with he | he
        · exact RemEv.noConfusion he
        · simp at he

/-- Store of the C6 witness: rows for ids "a" and "c", none for "b". -/
def c6Store : List Doc :=
  [{ idDocument := .str "a" }, { idDocument := .str "c" }]

/-- Witness for C6: removing ["a", "b", "c"] where "b" has no row deletes
"a", aborts with a 404 naming "b", and never checks nor deletes "c". -/
theorem C6_remove_documents_witness :
    ["a"].Nodup ∧
      (removeDocumentsRun c6Store ["a", "b", "c"]).http = .notFound "b" ∧
      (removeDocumentsRun c6Store ["a", "b", "c"]).store = [{ idDocument := .str "c" }] ∧
      RemEv.checked "c" ∉ (removeDocumentsRun c6Store ["a", "b", "c"]).trace ∧
      RemEv.deletedEv "c" ∉ (removeDocumentsRun c6Store ["a", "b", "c"]).trace := by
  have H := C6_remove_documents c6Store ["a"] "b" ["c"] (by decide)
    (by decide) (by decide)
  have h3 := H.2.2 "c" (by decide) (by decide)
  refine ⟨by decide, ?_, ?_, h3.1, h3.2⟩
  · rw [show (["a", "b", "c"] : List String) = ["a"] ++ "b" :: ["c"] from rfl, H.1]
  · rw [show (["a", "b", "c"] : List String) = ["a"] ++ "b" :: ["c"] from rfl, H.1]
    decide


end DataDocs
